import Mathlib

/-!
# ll2go instruction translation (`cmd/ll2go/instruction.go`)

A shallow embedding of the instruction translation layer of the decompiler:
`insts`, `inst`, the per-opcode translators `instAdd` … `instCall`,
`instBinaryOp`, `intPred` and `floatPred`.

* A Go `panic(msg)` is modelled as `Except.error msg`; a normal return is
  `Except.ok`.  Statements of one function are sequenced in source order, so
  the first panic met is the one reported.
* Values of the LLVM IR library (`ir.Instruction`, `value.Value`,
  `ir.IntPred`, `ir.FloatPred`) and of `go/ast`, `go/token` are modelled by
  inductive types holding the fields the translation reads.
* The methods `d.value` and `d.local` live outside `instruction.go`; they are
  fields of the `decompiler` record, so every theorem holds for any
  implementation of them.  The renderings made by `fmt.Sprintf` with the verb
  `%v` are fields of `Fmt` for the same reason.
-/

namespace Ll2go

/-! ## Target syntax: `go/token` and `go/ast` -/

/-- Tokens of `go/token` (the operators and assignment tokens). -/
inductive Token
  | ILLEGAL
  | ADD | SUB | MUL | QUO | REM
  | AND | OR | XOR | SHL | SHR | AND_NOT
  | LAND | LOR
  | EQL | LSS | GTR | ASSIGN | NOT
  | NEQ | LEQ | GEQ | DEFINE
  deriving DecidableEq, Repr

/-- Kinds of basic literal (`token.INT`, `token.FLOAT`, ...). -/
inductive LitKind
  | INT | FLOAT | CHAR | STRING
  deriving DecidableEq, Repr

/-- Expressions of `go/ast`: identifiers, basic literals, binary expressions. -/
inductive Expr
  | Ident (name : String)
  | BasicLit (kind : LitKind) (value : String)
  | BinaryExpr (X : Expr) (Op : Token) (Y : Expr)
  deriving DecidableEq, Repr

/-- Statements of `go/ast`: assignments (`Lhs Tok Rhs`) and expression statements. -/
inductive Stmt
  | AssignStmt (Lhs : List Expr) (Tok : Token) (Rhs : List Expr)
  | ExprStmt (X : Expr)
  deriving DecidableEq, Repr

/-! ## Source syntax: the LLVM IR library -/

/-- Types of LLVM IR values (`types.Type`). -/
inductive IRType
  | void
  | label
  | int (bits : Nat)
  | float (bits : Nat)
  | pointer (elem : IRType)
  | array (len : Nat) (elem : IRType)
  deriving DecidableEq, Repr

/-- Values of LLVM IR (`value.Value`): named locals (instruction results and
function parameters), globals, and constants. -/
inductive Value
  | localv (name : String) (typ : IRType)
  | global (name : String) (typ : IRType)
  | constInt (typ : IRType) (x : Int)
  | constFloat (typ : IRType) (bits : Nat)
  | constNull (typ : IRType)
  | constZeroInit (typ : IRType)
  deriving DecidableEq, Repr

/-- Integer comparison predicates (`ir.IntPred`).  The Go type is an integer
type with ten declared constants; `undeclared raw` is any other value of it. -/
inductive IntPred
  | IntEQ | IntNE
  | IntUGT | IntUGE | IntULT | IntULE
  | IntSGT | IntSGE | IntSLT | IntSLE
  | undeclared (raw : Int)
  deriving DecidableEq, Repr

/-- Floating-point comparison predicates (`ir.FloatPred`).  The Go type is an
integer type with sixteen declared constants; `undeclared raw` is any other
value of it. -/
inductive FloatPred
  | FloatFalse
  | FloatOEQ | FloatOGT | FloatOGE | FloatOLT | FloatOLE | FloatONE | FloatORD
  | FloatUEQ | FloatUGT | FloatUGE | FloatULT | FloatULE | FloatUNE | FloatUNO
  | FloatTrue
  | undeclared (raw : Int)
  deriving DecidableEq, Repr

/-- Instructions of LLVM IR (`ir.Instruction`): one constructor per concrete
instruction type matched by `inst`, each with its result name, result type and
operands; `InstOther typeName` is a value of any other dynamic type, named as
the verb `%T` prints it. -/
inductive Instruction
  -- Binary instructions
  | InstAdd (Name : String) (Typ : IRType) (X Y : Value)
  | InstFAdd (Name : String) (Typ : IRType) (X Y : Value)
  | InstSub (Name : String) (Typ : IRType) (X Y : Value)
  | InstFSub (Name : String) (Typ : IRType) (X Y : Value)
  | InstMul (Name : String) (Typ : IRType) (X Y : Value)
  | InstFMul (Name : String) (Typ : IRType) (X Y : Value)
  | InstUDiv (Name : String) (Typ : IRType) (X Y : Value)
  | InstSDiv (Name : String) (Typ : IRType) (X Y : Value)
  | InstFDiv (Name : String) (Typ : IRType) (X Y : Value)
  | InstURem (Name : String) (Typ : IRType) (X Y : Value)
  | InstSRem (Name : String) (Typ : IRType) (X Y : Value)
  | InstFRem (Name : String) (Typ : IRType) (X Y : Value)
  -- Bitwise instructions
  | InstShl (Name : String) (Typ : IRType) (X Y : Value)
  | InstLShr (Name : String) (Typ : IRType) (X Y : Value)
  | InstAShr (Name : String) (Typ : IRType) (X Y : Value)
  | InstAnd (Name : String) (Typ : IRType) (X Y : Value)
  | InstOr (Name : String) (Typ : IRType) (X Y : Value)
  | InstXor (Name : String) (Typ : IRType) (X Y : Value)
  -- Memory instructions
  | InstAlloca (Name : String) (Typ : IRType) (Elem : IRType) (NElems : Option Value)
  | InstLoad (Name : String) (Typ : IRType) (Src : Value)
  | InstStore (Src Dst : Value)
  | InstGetElementPtr (Name : String) (Typ : IRType) (Src : Value) (Indices : List Value)
  -- Conversion instructions
  | InstTrunc (Name : String) (From : Value) (To : IRType)
  | InstZExt (Name : String) (From : Value) (To : IRType)
  | InstSExt (Name : String) (From : Value) (To : IRType)
  | InstFPTrunc (Name : String) (From : Value) (To : IRType)
  | InstFPExt (Name : String) (From : Value) (To : IRType)
  | InstFPToUI (Name : String) (From : Value) (To : IRType)
  | InstFPToSI (Name : String) (From : Value) (To : IRType)
  | InstUIToFP (Name : String) (From : Value) (To : IRType)
  | InstSIToFP (Name : String) (From : Value) (To : IRType)
  | InstPtrToInt (Name : String) (From : Value) (To : IRType)
  | InstIntToPtr (Name : String) (From : Value) (To : IRType)
  | InstBitCast (Name : String) (From : Value) (To : IRType)
  | InstAddrSpaceCast (Name : String) (From : Value) (To : IRType)
  -- Other instructions
  | InstICmp (Name : String) (Typ : IRType) (Pred : IntPred) (X Y : Value)
  | InstFCmp (Name : String) (Typ : IRType) (Pred : FloatPred) (X Y : Value)
  | InstPhi (Name : String) (Typ : IRType) (Incs : List (Value × String))
  | InstSelect (Name : String) (Typ : IRType) (Cond X Y : Value)
  | InstCall (Name : String) (Typ : IRType) (Callee : Value) (Args : List Value)
  | InstOther (typeName : String)
  deriving DecidableEq, Repr

/-! ## What lies outside `instruction.go` -/

/-- The receiver of the translation methods.  `value` (operand resolution,
which may panic on a value it has no translation for) and `local_` (the Go
identifier of an LLVM IR local name; the source name is `local`) are defined
in other files of the package and are taken as parameters. -/
structure decompiler where
  value : Value → Except String Expr
  local_ : String → Expr

/-- Renderings of the verb `%v` of `fmt.Sprintf` for values of the IR library. -/
structure Fmt where
  inst : Instruction → String
  intPred : IntPred → String
  floatPred : FloatPred → String

/-! ## The translation (`instruction.go`) -/

/-- Model of `instBinaryOp`: converts the given LLVM IR binary operation to a
corresponding Go statement `local(name) := value(x) op value(y)`. -/
def instBinaryOp (d : decompiler) (name : String) (x : Value) (op : Token) (y : Value) :
    Except String Stmt := do
  let vx ← d.value x
  let vy ← d.value y
  let expr := Expr.BinaryExpr vx op vy
  return Stmt.AssignStmt [d.local_ name] Token.DEFINE [expr]

/-- Model of `intPred`: converts the given LLVM IR integer predicate to a
corresponding Go token. -/
def intPred (fm : Fmt) (pred : IntPred) : Except String Token :=
  match pred with
  | .IntEQ => .ok Token.EQL
  | .IntNE => .ok Token.NEQ
  | .IntUGT => .ok Token.GTR
  | .IntUGE => .ok Token.GEQ
  | .IntULT => .ok Token.LSS
  | .IntULE => .ok Token.LEQ
  | .IntSGT => .ok Token.GTR
  | .IntSGE => .ok Token.GEQ
  | .IntSLT => .ok Token.LSS
  | .IntSLE => .ok Token.LEQ
  | .undeclared raw =>
    .error ("support for integer predicate " ++ fm.intPred (.undeclared raw) ++
      " not yet implemented")

/-- Model of `floatPred`: converts the given LLVM IR floating-point predicate
to a corresponding Go token. -/
def floatPred (fm : Fmt) (pred : FloatPred) : Except String Token :=
  match pred with
  | .FloatFalse => .error "support for floating-point predicate \"false\" not yet implemented"
  | .FloatOEQ => .ok Token.EQL
  | .FloatOGT => .ok Token.GTR
  | .FloatOGE => .ok Token.GEQ
  | .FloatOLT => .ok Token.LSS
  | .FloatOLE => .ok Token.LEQ
  | .FloatONE => .ok Token.NEQ
  | .FloatORD => .error "support for floating-point predicate \"ord\" not yet implemented"
  | .FloatUEQ => .ok Token.EQL
  | .FloatUGT => .ok Token.GTR
  | .FloatUGE => .ok Token.GEQ
  | .FloatULT => .ok Token.LSS
  | .FloatULE => .ok Token.LEQ
  | .FloatUNE => .ok Token.NEQ
  | .FloatUNO => .error "support for floating-point predicate \"uno\" not yet implemented"
  | .FloatTrue => .error "support for floating-point predicate \"true\" not yet implemented"
  | .undeclared raw =>
    .error ("support for floating-point predicate " ++ fm.floatPred (.undeclared raw) ++
      " not yet implemented")

/-- Model of `instAdd`: converts the given LLVM IR add instruction to a
corresponding Go statement. -/
def instAdd (d : decompiler) (Name : String) (_Typ : IRType) (X Y : Value) :
    Except String Stmt :=
  instBinaryOp d Name X Token.ADD Y

/-- Model of `instFAdd`: converts the given LLVM IR fadd instruction to a
corresponding Go statement. -/
def instFAdd (d : decompiler) (Name : String) (_Typ : IRType) (X Y : Value) :
    Except String Stmt :=
  instBinaryOp d Name X Token.ADD Y

/-- Model of `instSub`: converts the given LLVM IR sub instruction to a
corresponding Go statement. -/
def instSub (d : decompiler) (Name : String) (_Typ : IRType) (X Y : Value) :
    Except String Stmt :=
  instBinaryOp d Name X Token.SUB Y

/-- Model of `instFSub`: converts the given LLVM IR fsub instruction to a
corresponding Go statement. -/
def instFSub (d : decompiler) (Name : String) (_Typ : IRType) (X Y : Value) :
    Except String Stmt :=
  instBinaryOp d Name X Token.SUB Y

/-- Model of `instMul`: converts the given LLVM IR mul instruction to a
corresponding Go statement. -/
def instMul (d : decompiler) (Name : String) (_Typ : IRType) (X Y : Value) :
    Except String Stmt :=
  instBinaryOp d Name X Token.MUL Y

/-- Model of `instFMul`: converts the given LLVM IR fmul instruction to a
corresponding Go statement. -/
def instFMul (d : decompiler) (Name : String) (_Typ : IRType) (X Y : Value) :
    Except String Stmt :=
  instBinaryOp d Name X Token.MUL Y

/-- Model of `instUDiv`: converts the given LLVM IR udiv instruction to a
corresponding Go statement. -/
def instUDiv (d : decompiler) (Name : String) (_Typ : IRType) (X Y : Value) :
    Except String Stmt :=
  instBinaryOp d Name X Token.QUO Y

/-- Model of `instSDiv`: converts the given LLVM IR sdiv instruction to a
corresponding Go statement. -/
def instSDiv (d : decompiler) (Name : String) (_Typ : IRType) (X Y : Value) :
    Except String Stmt :=
  instBinaryOp d Name X Token.QUO Y

/-- Model of `instFDiv`: converts the given LLVM IR fdiv instruction to a
corresponding Go statement. -/
def instFDiv (d : decompiler) (Name : String) (_Typ : IRType) (X Y : Value) :
    Except String Stmt :=
  instBinaryOp d Name X Token.QUO Y

/-- Model of `instURem`: converts the given LLVM IR urem instruction to a
corresponding Go statement. -/
def instURem (d : decompiler) (Name : String) (_Typ : IRType) (X Y : Value) :
    Except String Stmt :=
  instBinaryOp d Name X Token.REM Y

/-- Model of `instSRem`: converts the given LLVM IR srem instruction to a
corresponding Go statement. -/
def instSRem (d : decompiler) (Name : String) (_Typ : IRType) (X Y : Value) :
    Except String Stmt :=
  instBinaryOp d Name X Token.REM Y

/-- Model of `instFRem`: converts the given LLVM IR frem instruction to a
corresponding Go statement. -/
def instFRem (d : decompiler) (Name : String) (_Typ : IRType) (X Y : Value) :
    Except String Stmt :=
  instBinaryOp d Name X Token.REM Y

/-- Model of `instShl`: converts the given LLVM IR shl instruction to a
corresponding Go statement. -/
def instShl (d : decompiler) (Name : String) (_Typ : IRType) (X Y : Value) :
    Except String Stmt :=
  instBinaryOp d Name X Token.SHL Y

/-- Model of `instLShr`: converts the given LLVM IR lshr instruction to a
corresponding Go statement. -/
def instLShr (d : decompiler) (Name : String) (_Typ : IRType) (X Y : Value) :
    Except String Stmt :=
  instBinaryOp d Name X Token.SHR Y

/-- Model of `instAShr`: converts the given LLVM IR ashr instruction to a
corresponding Go statement. -/
def instAShr (d : decompiler) (Name : String) (_Typ : IRType) (X Y : Value) :
    Except String Stmt :=
  instBinaryOp d Name X Token.SHR Y

/-- Model of `instAnd`: converts the given LLVM IR and instruction to a
corresponding Go statement. -/
def instAnd (d : decompiler) (Name : String) (_Typ : IRType) (X Y : Value) :
    Except String Stmt :=
  instBinaryOp d Name X Token.AND Y

/-- Model of `instOr`: converts the given LLVM IR or instruction to a
corresponding Go statement. -/
def instOr (d : decompiler) (Name : String) (_Typ : IRType) (X Y : Value) :
    Except String Stmt :=
  instBinaryOp d Name X Token.OR Y

/-- Model of `instXor`: converts the given LLVM IR xor instruction to a
corresponding Go statement. -/
def instXor (d : decompiler) (Name : String) (_Typ : IRType) (X Y : Value) :
    Except String Stmt :=
  instBinaryOp d Name X Token.XOR Y

/-- Model of `instAlloca`: the alloca instruction has no translation yet. -/
def instAlloca (_d : decompiler) (_inst : Instruction) : Except String Stmt :=
  .error "not yet implemented"

/-- Model of `instLoad`: the load instruction has no translation yet. -/
def instLoad (_d : decompiler) (_inst : Instruction) : Except String Stmt :=
  .error "not yet implemented"

/-- Model of `instStore`: the store instruction has no translation yet. -/
def instStore (_d : decompiler) (_inst : Instruction) : Except String Stmt :=
  .error "not yet implemented"

/-- Model of `instGetElementPtr`: the getelementptr instruction has no translation yet. -/
def instGetElementPtr (_d : decompiler) (_inst : Instruction) : Except String Stmt :=
  .error "not yet implemented"

/-- Model of `instTrunc`: the trunc instruction has no translation yet. -/
def instTrunc (_d : decompiler) (_inst : Instruction) : Except String Stmt :=
  .error "not yet implemented"

/-- Model of `instZExt`: the zext instruction has no translation yet. -/
def instZExt (_d : decompiler) (_inst : Instruction) : Except String Stmt :=
  .error "not yet implemented"

/-- Model of `instSExt`: the sext instruction has no translation yet. -/
def instSExt (_d : decompiler) (_inst : Instruction) : Except String Stmt :=
  .error "not yet implemented"

/-- Model of `instFPTrunc`: the fptrunc instruction has no translation yet. -/
def instFPTrunc (_d : decompiler) (_inst : Instruction) : Except String Stmt :=
  .error "not yet implemented"

/-- Model of `instFPExt`: the fpext instruction has no translation yet. -/
def instFPExt (_d : decompiler) (_inst : Instruction) : Except String Stmt :=
  .error "not yet implemented"

/-- Model of `instFPToUI`: the fptoui instruction has no translation yet. -/
def instFPToUI (_d : decompiler) (_inst : Instruction) : Except String Stmt :=
  .error "not yet implemented"

/-- Model of `instFPToSI`: the fptosi instruction has no translation yet. -/
def instFPToSI (_d : decompiler) (_inst : Instruction) : Except String Stmt :=
  .error "not yet implemented"

/-- Model of `instUIToFP`: the uitofp instruction has no translation yet. -/
def instUIToFP (_d : decompiler) (_inst : Instruction) : Except String Stmt :=
  .error "not yet implemented"

/-- Model of `instSIToFP`: the sitofp instruction has no translation yet. -/
def instSIToFP (_d : decompiler) (_inst : Instruction) : Except String Stmt :=
  .error "not yet implemented"

/-- Model of `instPtrToInt`: the ptrtoint instruction has no translation yet. -/
def instPtrToInt (_d : decompiler) (_inst : Instruction) : Except String Stmt :=
  .error "not yet implemented"

/-- Model of `instIntToPtr`: the inttoptr instruction has no translation yet. -/
def instIntToPtr (_d : decompiler) (_inst : Instruction) : Except String Stmt :=
  .error "not yet implemented"

/-- Model of `instBitCast`: the bitcast instruction has no translation yet. -/
def instBitCast (_d : decompiler) (_inst : Instruction) : Except String Stmt :=
  .error "not yet implemented"

/-- Model of `instAddrSpaceCast`: the addrspacecast instruction has no translation yet. -/
def instAddrSpaceCast (_d : decompiler) (_inst : Instruction) : Except String Stmt :=
  .error "not yet implemented"

/-- Model of `instICmp`: converts the given LLVM IR icmp instruction to a
corresponding Go statement. -/
def instICmp (d : decompiler) (fm : Fmt) (Name : String) (_Typ : IRType) (Pred : IntPred)
    (X Y : Value) :
    Except String Stmt := do
  let op ← intPred fm Pred
  instBinaryOp d Name X op Y

/-- Model of `instFCmp`: converts the given LLVM IR fcmp instruction to a
corresponding Go statement. -/
def instFCmp (d : decompiler) (fm : Fmt) (Name : String) (_Typ : IRType) (Pred : FloatPred)
    (X Y : Value) :
    Except String Stmt := do
  let op ← floatPred fm Pred
  instBinaryOp d Name X op Y

/-- Model of `instSelect`: the select instruction has no translation yet. -/
def instSelect (_d : decompiler) (_inst : Instruction) : Except String Stmt :=
  .error "not yet implemented"

/-- Model of `instCall`: the call instruction has no translation yet. -/
def instCall (_d : decompiler) (_inst : Instruction) : Except String Stmt :=
  .error "not yet implemented"

/-- Model of `inst`: converts the given LLVM IR instruction to a corresponding
Go statement, by a switch on the dynamic type of the instruction. -/
def inst (d : decompiler) (fm : Fmt) (i : Instruction) : Except String Stmt :=
  match i with
  -- Binary instructions
  | .InstAdd name typ x y => instAdd d name typ x y
  | .InstFAdd name typ x y => instFAdd d name typ x y
  | .InstSub name typ x y => instSub d name typ x y
  | .InstFSub name typ x y => instFSub d name typ x y
  | .InstMul name typ x y => instMul d name typ x y
  | .InstFMul name typ x y => instFMul d name typ x y
  | .InstUDiv name typ x y => instUDiv d name typ x y
  | .InstSDiv name typ x y => instSDiv d name typ x y
  | .InstFDiv name typ x y => instFDiv d name typ x y
  | .InstURem name typ x y => instURem d name typ x y
  | .InstSRem name typ x y => instSRem d name typ x y
  | .InstFRem name typ x y => instFRem d name typ x y
  -- Bitwise instructions
  | .InstShl name typ x y => instShl d name typ x y
  | .InstLShr name typ x y => instLShr d name typ x y
  | .InstAShr name typ x y => instAShr d name typ x y
  | .InstAnd name typ x y => instAnd d name typ x y
  | .InstOr name typ x y => instOr d name typ x y
  | .InstXor name typ x y => instXor d name typ x y
  -- Memory instructions
  | .InstAlloca name typ elem nelems => instAlloca d (.InstAlloca name typ elem nelems)
  | .InstLoad name typ src => instLoad d (.InstLoad name typ src)
  | .InstStore src dst => instStore d (.InstStore src dst)
  | .InstGetElementPtr name typ src indices => instGetElementPtr d (.InstGetElementPtr name typ src indices)
  -- Conversion instructions
  | .InstTrunc name src ty => instTrunc d (.InstTrunc name src ty)
  | .InstZExt name src ty => instZExt d (.InstZExt name src ty)
  | .InstSExt name src ty => instSExt d (.InstSExt name src ty)
  | .InstFPTrunc name src ty => instFPTrunc d (.InstFPTrunc name src ty)
  | .InstFPExt name src ty => instFPExt d (.InstFPExt name src ty)
  | .InstFPToUI name src ty => instFPToUI d (.InstFPToUI name src ty)
  | .InstFPToSI name src ty => instFPToSI d (.InstFPToSI name src ty)
  | .InstUIToFP name src ty => instUIToFP d (.InstUIToFP name src ty)
  | .InstSIToFP name src ty => instSIToFP d (.InstSIToFP name src ty)
  | .InstPtrToInt name src ty => instPtrToInt d (.InstPtrToInt name src ty)
  | .InstIntToPtr name src ty => instIntToPtr d (.InstIntToPtr name src ty)
  | .InstBitCast name src ty => instBitCast d (.InstBitCast name src ty)
  | .InstAddrSpaceCast name src ty => instAddrSpaceCast d (.InstAddrSpaceCast name src ty)
  -- Other instructions
  | .InstICmp name typ pred x y => instICmp d fm name typ pred x y
  | .InstFCmp name typ pred x y => instFCmp d fm name typ pred x y
  | .InstPhi name typ incs =>
    .error ("unexpected PHI instruction `" ++ fm.inst (.InstPhi name typ incs) ++ "`")
  | .InstSelect name typ cond x y => instSelect d (.InstSelect name typ cond x y)
  | .InstCall name typ callee args => instCall d (.InstCall name typ callee args)
  | .InstOther typeName =>
    .error ("support for instruction " ++ typeName ++ " not yet implemented")

/-- The type assertion `inst.(*ir.InstPhi)` of `insts`. -/
def Instruction.isPhi : Instruction → Bool
  | .InstPhi _ _ _ => true
  | _ => false

/-- The loop of `insts`: `stmts` is the slice built so far, the list is the
part of the input still to be visited. -/
def instsLoop (d : decompiler) (fm : Fmt) : List Instruction → List Stmt → Except String (List Stmt)
  | [], stmts => .ok stmts
  | i :: rest, stmts =>
    if i.isPhi then
      -- PHI instructions are handled during the pre-processing of basic blocks.
      instsLoop d fm rest stmts
    else do
      let s ← inst d fm i
      instsLoop d fm rest (stmts ++ [s])

/-- Model of `insts`: converts the given LLVM IR instructions to a
corresponding list of Go statements. -/
def insts (d : decompiler) (fm : Fmt) (l : List Instruction) : Except String (List Stmt) :=
  instsLoop d fm l []

/-! ## Vocabulary of the specification -/

/-- The ten declared integer predicates, in declaration order. -/
def IntPred.declared : List IntPred :=
  [.IntEQ, .IntNE, .IntUGT, .IntUGE, .IntULT, .IntULE, .IntSGT, .IntSGE, .IntSLT, .IntSLE]

/-- The declared floating-point predicates, in the order of the cases of
`floatPred`. -/
def FloatPred.declared : List FloatPred :=
  [.FloatFalse, .FloatOEQ, .FloatOGT, .FloatOGE, .FloatOLT, .FloatOLE, .FloatONE, .FloatORD,
   .FloatUEQ, .FloatUGT, .FloatUGE, .FloatULT, .FloatULE, .FloatUNE, .FloatUNO, .FloatTrue]

/-- The four float predicates with no single-operator translation:
always-false, always-true, ordered-only and unordered-only. -/
def FloatPred.noOperator : List FloatPred :=
  [.FloatFalse, .FloatTrue, .FloatORD, .FloatUNO]

/-- The six comparison operators `==`, `!=`, `>`, `>=`, `<`, `<=`. -/
def comparisonOperators : List Token :=
  [.EQL, .NEQ, .GTR, .GEQ, .LSS, .LEQ]

/-- Opcodes of the instruction types matched by `inst`. -/
inductive Opcode
  | add | fadd | sub | fsub | mul | fmul | udiv | sdiv | fdiv | urem | srem | frem
  | shl | lshr | ashr | and | or | xor
  | alloca | load | store | getelementptr
  | trunc | zext | sext | fptrunc | fpext | fptoui | fptosi | uitofp | sitofp
  | ptrtoint | inttoptr | bitcast | addrspacecast
  | icmp | fcmp | phi | select | call
  deriving DecidableEq, Repr

/-- Opcode of an instruction; `none` for an instruction type `inst` has no case for. -/
def Instruction.opcode : Instruction → Option Opcode
  | .InstAdd .. => some .add
  | .InstFAdd .. => some .fadd
  | .InstSub .. => some .sub
  | .InstFSub .. => some .fsub
  | .InstMul .. => some .mul
  | .InstFMul .. => some .fmul
  | .InstUDiv .. => some .udiv
  | .InstSDiv .. => some .sdiv
  | .InstFDiv .. => some .fdiv
  | .InstURem .. => some .urem
  | .InstSRem .. => some .srem
  | .InstFRem .. => some .frem
  | .InstShl .. => some .shl
  | .InstLShr .. => some .lshr
  | .InstAShr .. => some .ashr
  | .InstAnd .. => some .and
  | .InstOr .. => some .or
  | .InstXor .. => some .xor
  | .InstAlloca .. => some .alloca
  | .InstLoad .. => some .load
  | .InstStore .. => some .store
  | .InstGetElementPtr .. => some .getelementptr
  | .InstTrunc .. => some .trunc
  | .InstZExt .. => some .zext
  | .InstSExt .. => some .sext
  | .InstFPTrunc .. => some .fptrunc
  | .InstFPExt .. => some .fpext
  | .InstFPToUI .. => some .fptoui
  | .InstFPToSI .. => some .fptosi
  | .InstUIToFP .. => some .uitofp
  | .InstSIToFP .. => some .sitofp
  | .InstPtrToInt .. => some .ptrtoint
  | .InstIntToPtr .. => some .inttoptr
  | .InstBitCast .. => some .bitcast
  | .InstAddrSpaceCast .. => some .addrspacecast
  | .InstICmp .. => some .icmp
  | .InstFCmp .. => some .fcmp
  | .InstPhi .. => some .phi
  | .InstSelect .. => some .select
  | .InstCall .. => some .call
  | .InstOther _ => none

/-- The memory opcodes: alloca, load, store, getelementptr. -/
def memoryOpcodes : List Opcode :=
  [.alloca, .load, .store, .getelementptr]

/-- The conversion opcodes. -/
def conversionOpcodes : List Opcode :=
  [.trunc, .zext, .sext, .fptrunc, .fpext, .fptoui, .fptosi, .uitofp, .sitofp,
   .ptrtoint, .inttoptr, .bitcast, .addrspacecast]

/-- The binary arithmetic opcodes, the cases of `inst` under "Binary instructions". -/
def binaryOpcodes : List Opcode :=
  [.add, .fadd, .sub, .fsub, .mul, .fmul, .udiv, .sdiv, .fdiv, .urem, .srem, .frem]

/-- The bitwise opcodes, the cases of `inst` under "Bitwise instructions". -/
def bitwiseOpcodes : List Opcode :=
  [.shl, .lshr, .ashr, .and, .or, .xor]

/-- The comparison opcodes. -/
def comparisonOpcodes : List Opcode :=
  [.icmp, .fcmp]

/-- The remaining opcodes: phi, select, call. -/
def otherOpcodes : List Opcode :=
  [.phi, .select, .call]

/-- The explicit cases of the switch of `inst`, in source order: binary,
bitwise, memory, conversion, then icmp, fcmp, phi, select, call. -/
def dispatchCases : List Opcode :=
  binaryOpcodes ++ bitwiseOpcodes ++ memoryOpcodes ++ conversionOpcodes ++
    comparisonOpcodes ++ otherOpcodes

/-- The opcodes whose translator is a stub: memory, conversion, select, call. -/
def stubbedOpcodes : List Opcode :=
  memoryOpcodes ++ conversionOpcodes ++ [.select, .call]

/-- The three error kinds of the specification. -/
inductive ErrorKind
  | UnimplementedOpcode
  | UnimplementedPredicate
  | ContractViolation
  deriving DecidableEq, Repr

/-- Whether `msg` starts with `p`. -/
def hasPrefix (p msg : String) : Bool :=
  p.data.isPrefixOf msg.data

/-- Whether `msg` ends with `s`. -/
def hasSuffix (s msg : String) : Bool :=
  s.data.isSuffixOf msg.data

/-- The error kind a panic message of this layer belongs to, read off the
message: a PHI report is a contract violation, a "support for … predicate …
not yet implemented" report is an unimplemented predicate, and the other
"not yet implemented" reports are unimplemented opcodes. -/
def errorKind (msg : String) : Option ErrorKind :=
  if hasPrefix "unexpected PHI instruction" msg then
    some .ContractViolation
  else if hasSuffix " not yet implemented" msg &&
      (hasPrefix "support for integer predicate " msg ||
        hasPrefix "support for floating-point predicate " msg) then
    some .UnimplementedPredicate
  else if hasSuffix "not yet implemented" msg then
    some .UnimplementedOpcode
  else
    none

/-- Whether a result is a panic whose message is of error kind `k`. -/
def raisesKind {α : Type} (k : ErrorKind) (r : Except String α) : Bool :=
  match r with
  | .error e => errorKind e == some k
  | .ok _ => false

/-- Whether a result is a normal return of one of the operators `ops`. -/
def returnsOneOf (ops : List Token) (r : Except String Token) : Bool :=
  match r with
  | .ok tok => ops.contains tok
  | .error _ => false

/-- Whether the message `msg` contains the word `word`. -/
def mentions (word msg : String) : Bool :=
  decide (word.data <:+: msg.data)

/-! ## A concrete environment, to run the translation on examples -/

/-- A resolver in the style of the package: named values become identifiers,
integer constants become integer literals, other constants are not supported. -/
def sampleDecompiler : decompiler where
  value := fun v =>
    match v with
    | .localv name _ => .ok (.Ident ("_" ++ name))
    | .global name _ => .ok (.Ident name)
    | .constInt _ x => .ok (.BasicLit .INT (toString x))
    | _ => .error "support for constant value not yet implemented"
  local_ := fun name => .Ident ("_" ++ name)

/-- A rendering of IR values for messages: the opcode or predicate name only. -/
def sampleFmt : Fmt where
  inst := fun i =>
    match i with
    | .InstPhi name _ _ => "%" ++ name ++ " = phi"
    | _ => "instruction"
  intPred := fun p =>
    match p with
    | .undeclared raw => "IntPred(" ++ toString raw ++ ")"
    | _ => "intpred"
  floatPred := fun p =>
    match p with
    | .undeclared raw => "FloatPred(" ++ toString raw ++ ")"
    | _ => "floatpred"

/-- A block made of a phi instruction followed by an add. -/
def sampleBlock : List Instruction :=
  [.InstPhi "0" (.int 32) [(.localv "a" (.int 32), "entry")],
   .InstAdd "1" (.int 32) (.localv "a" (.int 32)) (.localv "b" (.int 32))]

/-- A block made of a phi instruction followed by an alloca. -/
def sampleFailingBlock : List Instruction :=
  [.InstPhi "0" (.int 32) [(.localv "a" (.int 32), "entry")],
   .InstAlloca "4" (.pointer (.int 32)) (.int 32) none]

/-! ## Theorems -/

/-- When both operands resolve, `instBinaryOp` returns the define-assignment
of the binary expression over the resolved operands. -/
theorem instBinaryOp_ok (d : decompiler) (n : String) (x y : Value) (op : Token)
    (ex ey : Expr) (hx : d.value x = .ok ex) (hy : d.value y = .ok ey) :
    instBinaryOp d n x op y =
      .ok (.AssignStmt [d.local_ n] .DEFINE [.BinaryExpr ex op ey]) := by
  simp only [instBinaryOp, hx, hy]
  rfl

/-- C1: for each of the 18 arithmetic and bitwise opcodes, with any result
name, result type and operands `x`, `y` (resolved by `value` to `ex`, `ey`),
`inst` returns the assignment `local(n) := ex op ey` whose operator `op` is the
one of the fixed table: add, fadd give ADD; sub, fsub give SUB; mul, fmul give
MUL; udiv, sdiv, fdiv give QUO; urem, srem, frem give REM; shl gives SHL; lshr,
ashr give SHR; and gives AND; or gives OR; xor gives XOR. -/
theorem inst_arith_operator_table (d : decompiler) (fm : Fmt) (n : String) (t : IRType)
    (x y : Value) (ex ey : Expr) (hx : d.value x = .ok ex) (hy : d.value y = .ok ey) :
    inst d fm (.InstAdd n t x y) =
      .ok (.AssignStmt [d.local_ n] .DEFINE [.BinaryExpr ex .ADD ey]) ∧
    inst d fm (.InstFAdd n t x y) =
      .ok (.AssignStmt [d.local_ n] .DEFINE [.BinaryExpr ex .ADD ey]) ∧
    inst d fm (.InstSub n t x y) =
      .ok (.AssignStmt [d.local_ n] .DEFINE [.BinaryExpr ex .SUB ey]) ∧
    inst d fm (.InstFSub n t x y) =
      .ok (.AssignStmt [d.local_ n] .DEFINE [.BinaryExpr ex .SUB ey]) ∧
    inst d fm (.InstMul n t x y) =
      .ok (.AssignStmt [d.local_ n] .DEFINE [.BinaryExpr ex .MUL ey]) ∧
    inst d fm (.InstFMul n t x y) =
      .ok (.AssignStmt [d.local_ n] .DEFINE [.BinaryExpr ex .MUL ey]) ∧
    inst d fm (.InstUDiv n t x y) =
      .ok (.AssignStmt [d.local_ n] .DEFINE [.BinaryExpr ex .QUO ey]) ∧
    inst d fm (.InstSDiv n t x y) =
      .ok (.AssignStmt [d.local_ n] .DEFINE [.BinaryExpr ex .QUO ey]) ∧
    inst d fm (.InstFDiv n t x y) =
      .ok (.AssignStmt [d.local_ n] .DEFINE [.BinaryExpr ex .QUO ey]) ∧
    inst d fm (.InstURem n t x y) =
      .ok (.AssignStmt [d.local_ n] .DEFINE [.BinaryExpr ex .REM ey]) ∧
    inst d fm (.InstSRem n t x y) =
      .ok (.AssignStmt [d.local_ n] .DEFINE [.BinaryExpr ex .REM ey]) ∧
    inst d fm (.InstFRem n t x y) =
      .ok (.AssignStmt [d.local_ n] .DEFINE [.BinaryExpr ex .REM ey]) ∧
    inst d fm (.InstShl n t x y) =
      .ok (.AssignStmt [d.local_ n] .DEFINE [.BinaryExpr ex .SHL ey]) ∧
    inst d fm (.InstLShr n t x y) =
      .ok (.AssignStmt [d.local_ n] .DEFINE [.BinaryExpr ex .SHR ey]) ∧
    inst d fm (.InstAShr n t x y) =
      .ok (.AssignStmt [d.local_ n] .DEFINE [.BinaryExpr ex .SHR ey]) ∧
    inst d fm (.InstAnd n t x y) =
      .ok (.AssignStmt [d.local_ n] .DEFINE [.BinaryExpr ex .AND ey]) ∧
    inst d fm (.InstOr n t x y) =
      .ok (.AssignStmt [d.local_ n] .DEFINE [.BinaryExpr ex .OR ey]) ∧
    inst d fm (.InstXor n t x y) =
      .ok (.AssignStmt [d.local_ n] .DEFINE [.BinaryExpr ex .XOR ey]) := by
  simp only [inst, instAdd, instFAdd, instSub, instFSub, instMul, instFMul, instUDiv, instSDiv, instFDiv, instURem, instSRem, instFRem, instShl, instLShr, instAShr, instAnd, instOr, instXor,
    instBinaryOp_ok d n x y _ ex ey hx hy, and_self]

/-- Witness of C1 on `%1 = add i32 %a, %b` and its 17 siblings. -/
theorem inst_arith_operator_table_witness :
    inst sampleDecompiler sampleFmt
        (.InstAdd "1" (.int 32) (.localv "a" (.int 32)) (.localv "b" (.int 32))) =
      .ok (.AssignStmt [.Ident "_1"] .DEFINE [.BinaryExpr (.Ident "_a") .ADD (.Ident "_b")]) :=
  (inst_arith_operator_table sampleDecompiler sampleFmt "1" (.int 32)
    (.localv "a" (.int 32)) (.localv "b" (.int 32)) (.Ident "_a") (.Ident "_b") rfl rfl).1

/-- C2: for every result name `n`, operands `x`, `y` (resolved by `value` to
`ex`, `ey`) and operator `op`, `instBinaryOp` returns an assignment statement
with token DEFINE, exactly one left-hand side, `local(n)`, and exactly one
right-hand side, the binary expression with `X = ex`, `Op = op`, `Y = ey`, the
operands in that order. -/
theorem instBinaryOp_define_assign (d : decompiler) (n : String) (x y : Value) (op : Token)
    (ex ey : Expr) (hx : d.value x = .ok ex) (hy : d.value y = .ok ey) :
    ∃ lhs tok rhs, instBinaryOp d n x op y = .ok (.AssignStmt lhs tok rhs) ∧
      tok = .DEFINE ∧ tok ≠ .ASSIGN ∧
      lhs.length = 1 ∧ lhs = [d.local_ n] ∧
      rhs.length = 1 ∧ rhs = [.BinaryExpr ex op ey] :=
  ⟨[d.local_ n], .DEFINE, [.BinaryExpr ex op ey], instBinaryOp_ok d n x y op ex ey hx hy,
    rfl, by decide, rfl, rfl, rfl, rfl⟩

/-- Witness of C2: an add named 1 with operands a and b. -/
theorem instBinaryOp_define_assign_witness :
    ∃ lhs tok rhs,
      instBinaryOp sampleDecompiler "1" (.localv "a" (.int 32)) .ADD (.localv "b" (.int 32)) =
        .ok (.AssignStmt lhs tok rhs) ∧
      tok = .DEFINE ∧ tok ≠ .ASSIGN ∧
      lhs.length = 1 ∧ lhs = [sampleDecompiler.local_ "1"] ∧
      rhs.length = 1 ∧ rhs = [.BinaryExpr (.Ident "_a") .ADD (.Ident "_b")] :=
  instBinaryOp_define_assign sampleDecompiler "1" (.localv "a" (.int 32))
    (.localv "b" (.int 32)) .ADD (.Ident "_a") (.Ident "_b") rfl rfl

/-- C3: `intPred` succeeds on each of the 10 integer predicates: EQ gives EQL,
NE gives NEQ, UGT and SGT give GTR, UGE and SGE give GEQ, ULT and SLT give LSS,
ULE and SLE give LEQ; so the unsigned and the signed variant of gt, ge, lt, le
have the same image. -/
theorem intPred_table (fm : Fmt) :
    intPred fm .IntEQ = .ok .EQL ∧ intPred fm .IntNE = .ok .NEQ ∧
    intPred fm .IntUGT = .ok .GTR ∧ intPred fm .IntSGT = .ok .GTR ∧
    intPred fm .IntUGE = .ok .GEQ ∧ intPred fm .IntSGE = .ok .GEQ ∧
    intPred fm .IntULT = .ok .LSS ∧ intPred fm .IntSLT = .ok .LSS ∧
    intPred fm .IntULE = .ok .LEQ ∧ intPred fm .IntSLE = .ok .LEQ ∧
    intPred fm .IntUGT = intPred fm .IntSGT ∧ intPred fm .IntUGE = intPred fm .IntSGE ∧
    intPred fm .IntULT = intPred fm .IntSLT ∧ intPred fm .IntULE = intPred fm .IntSLE ∧
    (∀ p ∈ IntPred.declared, ∃ tok, intPred fm p = .ok tok) := by
  refine ⟨rfl, rfl, rfl, rfl, rfl, rfl, rfl, rfl, rfl, rfl, rfl, rfl, rfl, rfl, ?_⟩
  intro p hp
  simp only [IntPred.declared, List.mem_cons, List.mem_singleton, List.not_mem_nil,
    or_false] at hp
  rcases hp with h | h | h | h | h | h | h | h | h | h <;> subst h <;> exact ⟨_, rfl⟩

/-- C4: `floatPred` maps each ordered or unordered comparison predicate to the
operator of its comparison kind: OEQ, UEQ give EQL; OGT, UGT give GTR; OGE, UGE
give GEQ; OLT, ULT give LSS; OLE, ULE give LEQ; ONE, UNE give NEQ; and the set
of operators `floatPred` returns is exactly the six operators
`==`, `!=`, `>`, `>=`, `<`, `<=`. -/
theorem floatPred_table (fm : Fmt) :
    floatPred fm .FloatOEQ = .ok .EQL ∧ floatPred fm .FloatUEQ = .ok .EQL ∧
    floatPred fm .FloatOGT = .ok .GTR ∧ floatPred fm .FloatUGT = .ok .GTR ∧
    floatPred fm .FloatOGE = .ok .GEQ ∧ floatPred fm .FloatUGE = .ok .GEQ ∧
    floatPred fm .FloatOLT = .ok .LSS ∧ floatPred fm .FloatULT = .ok .LSS ∧
    floatPred fm .FloatOLE = .ok .LEQ ∧ floatPred fm .FloatULE = .ok .LEQ ∧
    floatPred fm .FloatONE = .ok .NEQ ∧ floatPred fm .FloatUNE = .ok .NEQ ∧
    (∀ tok, (∃ p, floatPred fm p = .ok tok) ↔ tok ∈ comparisonOperators) := by
  refine ⟨rfl, rfl, rfl, rfl, rfl, rfl, rfl, rfl, rfl, rfl, rfl, rfl, ?_⟩
  intro tok
  constructor
  · rintro ⟨p, hp⟩
    cases p <;> simp [floatPred] at hp <;> subst hp <;> decide
  · intro h
    simp only [comparisonOperators, List.mem_cons, List.mem_singleton, List.not_mem_nil,
      or_false] at h
    rcases h with h | h | h | h | h | h <;> subst h
    · exact ⟨.FloatOEQ, rfl⟩
    · exact ⟨.FloatONE, rfl⟩
    · exact ⟨.FloatOGT, rfl⟩
    · exact ⟨.FloatOGE, rfl⟩
    · exact ⟨.FloatOLT, rfl⟩
    · exact ⟨.FloatOLE, rfl⟩

/-- A prefix of a message is a prefix of every extension of the message. -/
theorem hasPrefix_append (p a b : String) (h : hasPrefix p a = true) :
    hasPrefix p (a ++ b) = true := by
  unfold hasPrefix at *
  rw [List.isPrefixOf_iff_prefix] at *
  rw [String.data_append]
  exact h.trans (List.prefix_append _ _)

/-- A message ends with what was appended to it last. -/
theorem hasSuffix_append (a s : String) : hasSuffix s (a ++ s) = true := by
  unfold hasSuffix
  rw [List.isSuffixOf_iff_suffix, String.data_append]
  exact List.suffix_append _ _

/-- C5: for every declared float predicate `p`, `floatPred` fails, with an
error of kind UnimplementedPredicate, if and only if `p` is one of
always-false, always-true, ordered-only, unordered-only; and it returns no
operator for any of these four. -/
theorem floatPred_unimplemented_iff (fm : Fmt) (p : FloatPred)
    (hp : p ∈ FloatPred.declared) :
    ((∃ e, floatPred fm p = .error e) ↔ p ∈ FloatPred.noOperator) ∧
    ((∃ e, floatPred fm p = .error e ∧ errorKind e = some .UnimplementedPredicate) ↔
      p ∈ FloatPred.noOperator) ∧
    (p ∈ FloatPred.noOperator → ∀ tok, floatPred fm p ≠ .ok tok) := by
  simp only [FloatPred.declared, List.mem_cons, List.mem_singleton, List.not_mem_nil,
    or_false] at hp
  rcases hp with h | h | h | h | h | h | h | h | h | h | h | h | h | h | h | h <;> subst h <;>
    simp [floatPred, FloatPred.noOperator] <;> decide

/-- Witness of C5 at the unordered-only predicate. -/
theorem floatPred_unimplemented_iff_witness :
    (∃ e, floatPred sampleFmt .FloatUNO = .error e ∧
      errorKind e = some .UnimplementedPredicate) ↔ FloatPred.FloatUNO ∈ FloatPred.noOperator :=
  (floatPred_unimplemented_iff sampleFmt .FloatUNO (by decide)).2.1

/-- C6 as stated fails: sixteen float predicates are declared, not 14, and
`floatPred` raises UnimplementedPredicate on four pairwise different ones
(false, true, ord, uno), not on exactly 3. -/
theorem floatPred_counts_refuted :
    ¬ (FloatPred.declared.length = 14) ∧
    ¬ ((FloatPred.declared.filter
        (fun p => raisesKind .UnimplementedPredicate (floatPred sampleFmt p))).length = 3) ∧
    [FloatPred.FloatFalse, FloatPred.FloatTrue, FloatPred.FloatORD, FloatPred.FloatUNO].Nodup ∧
    raisesKind .UnimplementedPredicate (floatPred sampleFmt .FloatFalse) = true ∧
    raisesKind .UnimplementedPredicate (floatPred sampleFmt .FloatTrue) = true ∧
    raisesKind .UnimplementedPredicate (floatPred sampleFmt .FloatORD) = true ∧
    raisesKind .UnimplementedPredicate (floatPred sampleFmt .FloatUNO) = true := by
  refine ⟨by decide, by decide, by decide, by decide, by decide, by decide, by decide⟩

/-- C6, amended: `intPred` classifies all 10 integer predicates (each returns
a comparison operator) and `floatPred` classifies all 16 float predicates;
exactly 4 of them (false, true, ord, uno) make `floatPred` raise
UnimplementedPredicate, and each of the other 12 returns one of the six
comparison operators. -/
theorem pred_coverage_counts (fm : Fmt) :
    (∀ p : IntPred, p ∈ IntPred.declared ↔ ∀ raw, p ≠ .undeclared raw) ∧
    IntPred.declared.Nodup ∧ IntPred.declared.length = 10 ∧
    IntPred.declared.all
      (fun p => returnsOneOf comparisonOperators (intPred fm p)) = true ∧
    (∀ p : FloatPred, p ∈ FloatPred.declared ↔ ∀ raw, p ≠ .undeclared raw) ∧
    FloatPred.declared.Nodup ∧ FloatPred.declared.length = 16 ∧
    FloatPred.declared.filter
      (fun p => raisesKind .UnimplementedPredicate (floatPred fm p)) =
      [.FloatFalse, .FloatORD, .FloatUNO, .FloatTrue] ∧
    (FloatPred.declared.filter
      (fun p => raisesKind .UnimplementedPredicate (floatPred fm p))).length = 4 ∧
    (FloatPred.declared.filter
      (fun p => returnsOneOf comparisonOperators (floatPred fm p))).length = 12 ∧
    FloatPred.declared.all
      (fun p => raisesKind .UnimplementedPredicate (floatPred fm p) ||
        returnsOneOf comparisonOperators (floatPred fm p)) = true := by
  refine ⟨?_, by decide, rfl, rfl, ?_, by decide, rfl, rfl, rfl, rfl, rfl⟩
  · intro p
    cases p <;> simp [IntPred.declared]
  · intro p
    cases p <;> simp [FloatPred.declared]

/-- C7: for every phi instruction (any name, type and incoming values), `inst`
fails with the message "unexpected PHI instruction" followed by the
instruction, an error of kind ContractViolation, and returns no statement. -/
theorem inst_phi_contract_violation (d : decompiler) (fm : Fmt) (n : String) (t : IRType)
    (incs : List (Value × String)) :
    inst d fm (.InstPhi n t incs) =
      .error ("unexpected PHI instruction `" ++ fm.inst (.InstPhi n t incs) ++ "`") ∧
    raisesKind .ContractViolation (inst d fm (.InstPhi n t incs)) = true ∧
    ∀ s, inst d fm (.InstPhi n t incs) ≠ .ok s := by
  refine ⟨rfl, ?_, ?_⟩
  · have h : hasPrefix "unexpected PHI instruction"
        ("unexpected PHI instruction `" ++ fm.inst (.InstPhi n t incs) ++ "`") = true :=
      hasPrefix_append _ _ _ (hasPrefix_append _ _ _ (by decide))
    simp [inst, raisesKind, errorKind, h]
  · intro s h
    simp [inst] at h

/-- The loop of `insts` returns the statements built so far followed by the
translations of the remaining non-phi instructions, when these all succeed. -/
theorem instsLoop_ok (d : decompiler) (fm : Fmt) :
    ∀ (l : List Instruction) (acc ss : List Stmt),
      (l.filter (fun i => !i.isPhi)).map (inst d fm) = ss.map Except.ok →
      instsLoop d fm l acc = .ok (acc ++ ss)
  | [], acc, ss, h => by
    cases ss with
    | nil => simp [instsLoop]
    | cons s ss => simp at h
  | i :: rest, acc, ss, h => by
    by_cases hi : i.isPhi = true
    · simp only [List.filter, hi, Bool.not_true] at h
      simp only [instsLoop, hi, if_true]
      exact instsLoop_ok d fm rest acc ss h
    · simp only [Bool.not_eq_true] at hi
      simp only [List.filter, hi, Bool.not_false, List.map_cons] at h
      cases ss with
      | nil => simp at h
      | cons s ss =>
        simp only [List.map_cons, List.cons.injEq] at h
        obtain ⟨h1, h2⟩ := h
        have ih := instsLoop_ok d fm rest (acc ++ [s]) ss h2
        simp only [instsLoop, hi, h1]
        simpa [bind, Except.bind] using ih

/-- When every non-phi instruction of a list translates, the translations of
its non-phi instructions form a list of statements. -/
theorem nonphi_translations (d : decompiler) (fm : Fmt) :
    ∀ (l : List Instruction), (∀ i ∈ l, i.isPhi = false → ∃ s, inst d fm i = .ok s) →
      ∃ ss : List Stmt, (l.filter (fun i => !i.isPhi)).map (inst d fm) = ss.map Except.ok
  | [], _ => ⟨[], rfl⟩
  | i :: rest, h => by
    obtain ⟨ss, hss⟩ := nonphi_translations d fm rest
      (fun j hj => h j (List.mem_cons_of_mem _ hj))
    by_cases hi : i.isPhi = true
    · exact ⟨ss, by simpa [List.filter, hi] using hss⟩
    · simp only [Bool.not_eq_true] at hi
      obtain ⟨s, hs⟩ := h i (List.mem_cons_self _ _) hi
      exact ⟨s :: ss, by simp [List.filter, hi, hs, hss]⟩

/-- C8: for every instruction list `l` on which every non-phi instruction
translates, `insts l` returns the list obtained by applying `inst` to the
non-phi instructions of `l` in their input order: its length is the number of
non-phi instructions, its k-th statement is `inst` of the k-th non-phi
instruction, and phi instructions contribute nothing. -/
theorem insts_eq_inst_on_nonphi (d : decompiler) (fm : Fmt) (l : List Instruction)
    (h : ∀ i ∈ l, i.isPhi = false → ∃ s, inst d fm i = .ok s) :
    ∃ ss, insts d fm l = .ok ss ∧
      ss.map Except.ok = (l.filter (fun i => !i.isPhi)).map (inst d fm) ∧
      ss.length = (l.filter (fun i => !i.isPhi)).length ∧
      ∀ k : Nat, (ss[k]?).map Except.ok = ((l.filter (fun i => !i.isPhi))[k]?).map (inst d fm) := by
  obtain ⟨ss, hss⟩ := nonphi_translations d fm l h
  refine ⟨ss, ?_, hss.symm, ?_, ?_⟩
  · simpa [insts] using instsLoop_ok d fm l [] ss hss
  · simpa using (congrArg List.length hss).symm
  · intro k
    have := congrArg (fun xs => xs[k]?) hss
    simpa [List.getElem?_map] using this.symm

/-- Witness of C8: a phi followed by an add yields the add's statement only. -/
theorem insts_eq_inst_on_nonphi_witness :
    insts sampleDecompiler sampleFmt sampleBlock =
      .ok [.AssignStmt [.Ident "_1"] .DEFINE [.BinaryExpr (.Ident "_a") .ADD (.Ident "_b")]] ∧
    ∃ ss, insts sampleDecompiler sampleFmt sampleBlock = .ok ss ∧
      ss.map Except.ok =
        (sampleBlock.filter (fun i => !i.isPhi)).map (inst sampleDecompiler sampleFmt) ∧
      ss.length = (sampleBlock.filter (fun i => !i.isPhi)).length ∧
      ∀ k : Nat, (ss[k]?).map Except.ok =
        ((sampleBlock.filter (fun i => !i.isPhi))[k]?).map (inst sampleDecompiler sampleFmt) :=
  ⟨rfl, insts_eq_inst_on_nonphi sampleDecompiler sampleFmt sampleBlock (by
    intro i hi hphi
    simp only [sampleBlock, List.mem_cons, List.mem_singleton, List.not_mem_nil,
      or_false] at hi
    rcases hi with hi | hi
    · subst hi; simp [Instruction.isPhi] at hphi
    · subst hi; exact ⟨_, rfl⟩)⟩

/-- Every instruction of a stubbed opcode makes `inst` panic with the one
message "not yet implemented". -/
theorem inst_stub_error (d : decompiler) (fm : Fmt) (i : Instruction) (op : Opcode)
    (hop : i.opcode = some op) (hs : op ∈ stubbedOpcodes) :
    inst d fm i = .error "not yet implemented" := by
  cases i <;> simp only [Instruction.opcode, Option.some.injEq, reduceCtorEq] at hop <;>
    subst hop <;>
    first
    | rfl
    | (exfalso; revert hs; decide)

/-- C9: for every memory instruction (alloca, load, store, getelementptr),
every conversion instruction, every select and every call, with any operands,
`inst` fails with the same message "not yet implemented", an error of kind
UnimplementedOpcode, and returns no statement. -/
theorem inst_stub_not_implemented (d : decompiler) (fm : Fmt) (i : Instruction) (op : Opcode)
    (hop : i.opcode = some op) (hs : op ∈ stubbedOpcodes) :
    inst d fm i = .error "not yet implemented" ∧
    raisesKind .UnimplementedOpcode (inst d fm i) = true ∧
    ∀ s, inst d fm i ≠ .ok s := by
  have h := inst_stub_error d fm i op hop hs
  refine ⟨h, ?_, ?_⟩
  · rw [h]; decide
  · intro s hs'
    rw [h] at hs'
    cases hs'

/-- Witness of C9 on `%4 = alloca i32`. -/
theorem inst_stub_not_implemented_witness :
    inst sampleDecompiler sampleFmt (.InstAlloca "4" (.pointer (.int 32)) (.int 32) none) =
      .error "not yet implemented" ∧
    raisesKind .UnimplementedOpcode
      (inst sampleDecompiler sampleFmt
        (.InstAlloca "4" (.pointer (.int 32)) (.int 32) none)) = true ∧
    ∀ s, inst sampleDecompiler sampleFmt
      (.InstAlloca "4" (.pointer (.int 32)) (.int 32) none) ≠ .ok s :=
  inst_stub_not_implemented sampleDecompiler sampleFmt
    (.InstAlloca "4" (.pointer (.int 32)) (.int 32) none) .alloca rfl (by decide)

/-- C10 as stated fails: the error `inst` reports for `%4 = alloca i32` is
"not yet implemented", which does not contain "alloca", and it is the very
error reported for a load; likewise for trunc and call. -/
theorem stub_errors_not_distinct :
    inst sampleDecompiler sampleFmt (.InstAlloca "4" (.pointer (.int 32)) (.int 32) none) =
      .error "not yet implemented" ∧
    mentions "alloca" "not yet implemented" = false ∧
    inst sampleDecompiler sampleFmt (.InstAlloca "4" (.pointer (.int 32)) (.int 32) none) =
      inst sampleDecompiler sampleFmt
        (.InstLoad "5" (.int 32) (.localv "4" (.pointer (.int 32)))) ∧
    inst sampleDecompiler sampleFmt (.InstTrunc "6" (.localv "5" (.int 32)) (.int 8)) =
      inst sampleDecompiler sampleFmt
        (.InstCall "7" (.int 32) (.global "f" (.pointer (.int 8))) []) :=
  ⟨rfl, by decide, rfl, rfl⟩

/-- C10, amended: every stubbed instruction kind fails with the one message
"not yet implemented", so for any two instructions of stubbed opcodes, equal
or different, the reported errors are equal. -/
theorem stub_errors_uniform (d : decompiler) (fm : Fmt) (i j : Instruction)
    (opi opj : Opcode) (hi : i.opcode = some opi) (hj : j.opcode = some opj)
    (hsi : opi ∈ stubbedOpcodes) (hsj : opj ∈ stubbedOpcodes) :
    inst d fm i = .error "not yet implemented" ∧ inst d fm j = inst d fm i := by
  rw [inst_stub_error d fm i opi hi hsi, inst_stub_error d fm j opj hj hsj]
  exact ⟨rfl, rfl⟩

/-- Witness of the amended C10 on an alloca and a load. -/
theorem stub_errors_uniform_witness :
    inst sampleDecompiler sampleFmt (.InstAlloca "4" (.pointer (.int 32)) (.int 32) none) =
      .error "not yet implemented" ∧
    inst sampleDecompiler sampleFmt
        (.InstLoad "5" (.int 32) (.localv "4" (.pointer (.int 32)))) =
      inst sampleDecompiler sampleFmt (.InstAlloca "4" (.pointer (.int 32)) (.int 32) none) :=
  stub_errors_uniform sampleDecompiler sampleFmt
    (.InstAlloca "4" (.pointer (.int 32)) (.int 32) none)
    (.InstLoad "5" (.int 32) (.localv "4" (.pointer (.int 32)))) .alloca .load rfl rfl
    (by decide) (by decide)

/-! ### Kinds of the errors reported -/

/-- A message that differs from `p` within its first `k` characters does not
start with `p`. -/
theorem hasPrefix_of_mismatch (p m : String) (k : Nat)
    (h : k ≤ p.data.length ∧ k ≤ m.data.length ∧ p.data.take k ≠ m.data.take k) :
    hasPrefix p m = false := by
  obtain ⟨hp, _, hne⟩ := h
  cases hpre : hasPrefix p m
  · rfl
  · exfalso
    unfold hasPrefix at hpre
    rw [List.isPrefixOf_iff_prefix] at hpre
    obtain ⟨t, ht⟩ := hpre
    apply hne
    rw [← ht, List.take_append_of_le_length hp]

/-- A difference within the first `k` characters survives appending. -/
theorem mismatch_append (p m b : String) (k : Nat)
    (h : k ≤ p.data.length ∧ k ≤ m.data.length ∧ p.data.take k ≠ m.data.take k) :
    k ≤ p.data.length ∧ k ≤ (m ++ b).data.length ∧
      p.data.take k ≠ (m ++ b).data.take k := by
  obtain ⟨hp, hm, hne⟩ := h
  refine ⟨hp, ?_, ?_⟩
  · rw [String.data_append, List.length_append]; omega
  · rw [String.data_append, List.take_append_of_le_length hm]; exact hne

/-- A suffix of the part appended last is a suffix of the whole message. -/
theorem hasSuffix_append_of (s t a : String) (h : hasSuffix s t = true) :
    hasSuffix s (a ++ t) = true := by
  unfold hasSuffix at *
  rw [List.isSuffixOf_iff_suffix] at *
  rw [String.data_append]
  exact h.trans (List.suffix_append _ _)

/-- The report of a PHI instruction is a contract violation, whatever the
rendering of the instruction. -/
theorem errorKind_phi (r : String) :
    errorKind ("unexpected PHI instruction `" ++ r ++ "`") = some .ContractViolation := by
  have h : hasPrefix "unexpected PHI instruction"
      ("unexpected PHI instruction `" ++ r ++ "`") = true :=
    hasPrefix_append _ _ _ (hasPrefix_append _ _ _ (by decide))
  simp [errorKind, h]

/-- The report of the default case of `intPred` is an unimplemented predicate. -/
theorem errorKind_intPred_default (r : String) :
    errorKind ("support for integer predicate " ++ r ++ " not yet implemented") =
      some .UnimplementedPredicate := by
  have h1 : hasPrefix "unexpected PHI instruction"
      ("support for integer predicate " ++ r ++ " not yet implemented") = false :=
    hasPrefix_of_mismatch _ _ 1 (mismatch_append _ _ _ 1 (mismatch_append _ _ _ 1
      ⟨by decide, by decide, by decide⟩))
  have h2 : hasPrefix "support for integer predicate "
      ("support for integer predicate " ++ r ++ " not yet implemented") = true :=
    hasPrefix_append _ _ _ (hasPrefix_append _ _ _ (by decide))
  have h3 : hasSuffix " not yet implemented"
      ("support for integer predicate " ++ r ++ " not yet implemented") = true :=
    hasSuffix_append _ _
  simp [errorKind, h1, h2, h3]

/-- The report of the default case of `floatPred` is an unimplemented predicate. -/
theorem errorKind_floatPred_default (r : String) :
    errorKind ("support for floating-point predicate " ++ r ++ " not yet implemented") =
      some .UnimplementedPredicate := by
  have h1 : hasPrefix "unexpected PHI instruction"
      ("support for floating-point predicate " ++ r ++ " not yet implemented") = false :=
    hasPrefix_of_mismatch _ _ 1 (mismatch_append _ _ _ 1 (mismatch_append _ _ _ 1
      ⟨by decide, by decide, by decide⟩))
  have h2 : hasPrefix "support for floating-point predicate "
      ("support for floating-point predicate " ++ r ++ " not yet implemented") = true :=
    hasPrefix_append _ _ _ (hasPrefix_append _ _ _ (by decide))
  have h3 : hasSuffix " not yet implemented"
      ("support for floating-point predicate " ++ r ++ " not yet implemented") = true :=
    hasSuffix_append _ _
  simp [errorKind, h1, h2, h3]

/-- The report of the default case of `inst` is an unimplemented opcode. -/
theorem errorKind_inst_default (T : String) :
    errorKind ("support for instruction " ++ T ++ " not yet implemented") =
      some .UnimplementedOpcode := by
  have h1 : hasPrefix "unexpected PHI instruction"
      ("support for instruction " ++ T ++ " not yet implemented") = false :=
    hasPrefix_of_mismatch _ _ 1 (mismatch_append _ _ _ 1 (mismatch_append _ _ _ 1
      ⟨by decide, by decide, by decide⟩))
  have h2 : hasPrefix "support for integer predicate "
      ("support for instruction " ++ T ++ " not yet implemented") = false :=
    hasPrefix_of_mismatch _ _ 15 (mismatch_append _ _ _ 15 (mismatch_append _ _ _ 15
      ⟨by decide, by decide, by decide⟩))
  have h3 : hasPrefix "support for floating-point predicate "
      ("support for instruction " ++ T ++ " not yet implemented") = false :=
    hasPrefix_of_mismatch _ _ 13 (mismatch_append _ _ _ 13 (mismatch_append _ _ _ 13
      ⟨by decide, by decide, by decide⟩))
  have h4 : hasSuffix "not yet implemented"
      ("support for instruction " ++ T ++ " not yet implemented") = true :=
    hasSuffix_append_of _ _ _ (by decide)
  simp [errorKind, h1, h2, h3, h4]

/-- Every error `intPred` reports is an unimplemented predicate. -/
theorem intPred_error_kind (fm : Fmt) (p : IntPred) (e : String)
    (h : intPred fm p = .error e) : errorKind e = some .UnimplementedPredicate := by
  cases p <;> simp only [intPred, reduceCtorEq, Except.error.injEq] at h
  subst h
  exact errorKind_intPred_default _

/-- Every error `floatPred` reports is an unimplemented predicate. -/
theorem floatPred_error_kind (fm : Fmt) (p : FloatPred) (e : String)
    (h : floatPred fm p = .error e) : errorKind e = some .UnimplementedPredicate := by
  cases p <;> simp only [floatPred, reduceCtorEq, Except.error.injEq] at h <;> subst h <;>
    first
    | decide
    | exact errorKind_floatPred_default _

/-- C11: the three failure classes are pairwise distinguishable by the error
reported: the error `inst` reports for a phi instruction (a contract
violation), the error it reports for a not-yet-implemented opcode (a stubbed
one, or one with no case) and any error `intPred` or `floatPred` reports are
pairwise different messages, of three different kinds. -/
theorem failure_classes_distinct (d : decompiler) (fm : Fmt) (phi i : Instruction)
    (ephi eop epred : String)
    (hphi : phi.isPhi = true) (h1 : inst d fm phi = .error ephi)
    (hi : (∃ op, i.opcode = some op ∧ op ∈ stubbedOpcodes) ∨ i.opcode = none)
    (h2 : inst d fm i = .error eop)
    (h3 : (∃ p, intPred fm p = .error epred) ∨ (∃ p, floatPred fm p = .error epred)) :
    ephi ≠ eop ∧ ephi ≠ epred ∧ eop ≠ epred ∧
    errorKind ephi = some .ContractViolation ∧
    errorKind eop = some .UnimplementedOpcode ∧
    errorKind epred = some .UnimplementedPredicate := by
  have k1 : errorKind ephi = some .ContractViolation := by
    cases phi <;> simp only [Instruction.isPhi, reduceCtorEq] at hphi
    simp only [inst, Except.error.injEq] at h1
    subst h1
    exact errorKind_phi _
  have k2 : errorKind eop = some .UnimplementedOpcode := by
    rcases hi with ⟨op, hop, hs⟩ | hnone
    · rw [inst_stub_error d fm i op hop hs] at h2
      simp only [Except.error.injEq] at h2
      subst h2
      decide
    · cases i <;> simp only [Instruction.opcode, reduceCtorEq] at hnone
      simp only [inst, Except.error.injEq] at h2
      subst h2
      exact errorKind_inst_default _
  have k3 : errorKind epred = some .UnimplementedPredicate := by
    rcases h3 with ⟨p, hp⟩ | ⟨p, hp⟩
    · exact intPred_error_kind fm p epred hp
    · exact floatPred_error_kind fm p epred hp
  refine ⟨?_, ?_, ?_, k1, k2, k3⟩
  · intro h; rw [h, k2] at k1; cases k1
  · intro h; rw [h, k3] at k1; cases k1
  · intro h; rw [h, k3] at k2; cases k2

/-- Witness of C11: a phi, an alloca and the predicate `uno`. -/
theorem failure_classes_distinct_witness :
    "unexpected PHI instruction `%0 = phi`" ≠ "not yet implemented" ∧
    "unexpected PHI instruction `%0 = phi`" ≠
      "support for floating-point predicate \"uno\" not yet implemented" ∧
    "not yet implemented" ≠
      "support for floating-point predicate \"uno\" not yet implemented" ∧
    errorKind "unexpected PHI instruction `%0 = phi`" = some .ContractViolation ∧
    errorKind "not yet implemented" = some .UnimplementedOpcode ∧
    errorKind "support for floating-point predicate \"uno\" not yet implemented" =
      some .UnimplementedPredicate :=
  failure_classes_distinct sampleDecompiler sampleFmt
    (.InstPhi "0" (.int 32) [(.localv "a" (.int 32), "entry")])
    (.InstAlloca "4" (.pointer (.int 32)) (.int 32) none)
    _ _ _ rfl rfl (Or.inl ⟨.alloca, rfl, by decide⟩) rfl (Or.inr ⟨.FloatUNO, rfl⟩)

/-- C12: for every fcmp instruction with predicate `uno`, with any name, type
and operands, `inst` fails with the UnimplementedPredicate error whose message
names "uno"; and the errors `floatPred` reports for false, ord, uno and true
are pairwise different, each naming its own predicate. -/
theorem inst_fcmp_uno_unimplemented (d : decompiler) (fm : Fmt) (n : String) (t : IRType)
    (x y : Value) :
    inst d fm (.InstFCmp n t .FloatUNO x y) =
      .error "support for floating-point predicate \"uno\" not yet implemented" ∧
    raisesKind .UnimplementedPredicate (inst d fm (.InstFCmp n t .FloatUNO x y)) = true ∧
    floatPred fm .FloatFalse =
      .error "support for floating-point predicate \"false\" not yet implemented" ∧
    floatPred fm .FloatORD =
      .error "support for floating-point predicate \"ord\" not yet implemented" ∧
    floatPred fm .FloatUNO =
      .error "support for floating-point predicate \"uno\" not yet implemented" ∧
    floatPred fm .FloatTrue =
      .error "support for floating-point predicate \"true\" not yet implemented" ∧
    ["support for floating-point predicate \"false\" not yet implemented",
     "support for floating-point predicate \"ord\" not yet implemented",
     "support for floating-point predicate \"uno\" not yet implemented",
     "support for floating-point predicate \"true\" not yet implemented"].Nodup ∧
    mentions "\"false\""
      "support for floating-point predicate \"false\" not yet implemented" = true ∧
    mentions "\"ord\""
      "support for floating-point predicate \"ord\" not yet implemented" = true ∧
    mentions "\"uno\""
      "support for floating-point predicate \"uno\" not yet implemented" = true ∧
    mentions "\"true\""
      "support for floating-point predicate \"true\" not yet implemented" = true := by
  refine ⟨rfl, rfl, rfl, rfl, rfl, rfl, by decide, by decide, by decide, by decide,
    by decide⟩

/-! ### Outcomes of `inst` -/

/-- The errors of the sample resolver are unimplemented-opcode errors. -/
theorem sampleDecompiler_value_errors (v : Value) (e : String)
    (h : sampleDecompiler.value v = .error e) : errorKind e = some .UnimplementedOpcode := by
  cases v <;> simp only [sampleDecompiler, reduceCtorEq, Except.error.injEq] at h <;>
    subst h <;> decide

/-- The two outcomes of `instBinaryOp`: the define-assignment of a binary
expression, or the error the resolver reported for an operand. -/
theorem instBinaryOp_outcome (d : decompiler) (n : String) (x y : Value) (op : Token) :
    (∃ lhs ex tok ey,
      instBinaryOp d n x op y = .ok (.AssignStmt [lhs] .DEFINE [.BinaryExpr ex tok ey])) ∨
    (∃ v e, d.value v = .error e ∧ instBinaryOp d n x op y = .error e) := by
  cases hx : d.value x with
  | error e => exact Or.inr ⟨x, e, hx, by simp only [instBinaryOp, hx]; rfl⟩
  | ok ex =>
    cases hy : d.value y with
    | error e => exact Or.inr ⟨y, e, hy, by simp only [instBinaryOp, hx, hy]; rfl⟩
    | ok ey => exact Or.inl ⟨_, ex, op, ey, instBinaryOp_ok d n x y op ex ey hx hy⟩

/-- When the resolver reports unimplemented-opcode errors only, every
instruction other than a phi makes `inst` return a define-assignment of a
binary expression or fail with an unimplemented opcode or predicate. -/
theorem inst_outcome (d : decompiler) (fm : Fmt)
    (hv : ∀ v e, d.value v = .error e → errorKind e = some .UnimplementedOpcode)
    (i : Instruction) (hphi : i.isPhi = false) :
    (∃ lhs ex tok ey, inst d fm i = .ok (.AssignStmt [lhs] .DEFINE [.BinaryExpr ex tok ey])) ∨
    (∃ e, inst d fm i = .error e ∧
      (errorKind e = some .UnimplementedOpcode ∨
        errorKind e = some .UnimplementedPredicate)) := by
  have bin : ∀ (n : String) (x y : Value) (op : Token),
      (∃ lhs ex tok ey,
        instBinaryOp d n x op y = .ok (.AssignStmt [lhs] .DEFINE [.BinaryExpr ex tok ey])) ∨
      (∃ e, instBinaryOp d n x op y = .error e ∧
        (errorKind e = some .UnimplementedOpcode ∨
          errorKind e = some .UnimplementedPredicate)) := by
    intro n x y op
    rcases instBinaryOp_outcome d n x y op with h | ⟨v, e, hve, he⟩
    · exact Or.inl h
    · exact Or.inr ⟨e, he, Or.inl (hv v e hve)⟩
  have stub : ∃ e, (Except.error "not yet implemented" : Except String Stmt) = .error e ∧
      (errorKind e = some .UnimplementedOpcode ∨
        errorKind e = some .UnimplementedPredicate) :=
    ⟨_, rfl, Or.inl (by decide)⟩
  cases i with
  | InstICmp n t p x y =>
    cases hp : intPred fm p with
    | error e =>
      exact Or.inr ⟨e, by simp only [inst, instICmp, hp]; rfl,
        Or.inr (intPred_error_kind fm p e hp)⟩
    | ok tok =>
      have h : inst d fm (.InstICmp n t p x y) = instBinaryOp d n x tok y := by
        simp only [inst, instICmp, hp]; rfl
      rw [h]; exact bin n x y tok
  | InstFCmp n t p x y =>
    cases hp : floatPred fm p with
    | error e =>
      exact Or.inr ⟨e, by simp only [inst, instFCmp, hp]; rfl,
        Or.inr (floatPred_error_kind fm p e hp)⟩
    | ok tok =>
      have h : inst d fm (.InstFCmp n t p x y) = instBinaryOp d n x tok y := by
        simp only [inst, instFCmp, hp]; rfl
      rw [h]; exact bin n x y tok
  | InstPhi n t incs => simp [Instruction.isPhi] at hphi
  | InstOther T => exact Or.inr ⟨_, rfl, Or.inl (errorKind_inst_default T)⟩
  | _ =>
    first
    | exact bin _ _ _ _
    | exact Or.inr stub

/-- C13 as stated fails on phi, an opcode of the closed set: `inst` returns no
statement for it and fails with a contract violation, which is neither an
unimplemented opcode nor an unimplemented predicate. -/
theorem inst_phi_not_unimplemented :
    Instruction.opcode (.InstPhi "0" (.int 32) [(.localv "a" (.int 32), "entry")]) =
      some .phi ∧
    inst sampleDecompiler sampleFmt
        (.InstPhi "0" (.int 32) [(.localv "a" (.int 32), "entry")]) =
      .error "unexpected PHI instruction `%0 = phi`" ∧
    errorKind "unexpected PHI instruction `%0 = phi`" = some .ContractViolation ∧
    errorKind "unexpected PHI instruction `%0 = phi`" ≠ some .UnimplementedOpcode ∧
    errorKind "unexpected PHI instruction `%0 = phi`" ≠ some .UnimplementedPredicate :=
  ⟨rfl, rfl, by decide, by decide, by decide⟩

/-- C13, amended: when the operand resolver reports unimplemented-opcode
errors only, for every instruction of every opcode of the closed set other
than phi, `inst` either returns exactly one well-formed assignment statement
(a define-assignment of one binary expression to one left-hand side) or fails
with an Unimplemented error (opcode or predicate); for a phi instruction it
fails with a contract violation. -/
theorem inst_exhaustive (d : decompiler) (fm : Fmt)
    (hv : ∀ v e, d.value v = .error e → errorKind e = some .UnimplementedOpcode)
    (i : Instruction) (op : Opcode) (hop : i.opcode = some op) :
    (op ≠ .phi →
      (∃ lhs ex tok ey,
        inst d fm i = .ok (.AssignStmt [lhs] .DEFINE [.BinaryExpr ex tok ey])) ∨
      (∃ e, inst d fm i = .error e ∧
        (errorKind e = some .UnimplementedOpcode ∨
          errorKind e = some .UnimplementedPredicate))) ∧
    (op = .phi → ∃ e, inst d fm i = .error e ∧ errorKind e = some .ContractViolation) := by
  constructor
  · intro hne
    apply inst_outcome d fm hv i
    cases i <;> first
      | rfl
      | (simp only [Instruction.opcode, Option.some.injEq] at hop; exact absurd hop.symm hne)
  · intro heq
    subst heq
    cases i <;> simp only [Instruction.opcode, Option.some.injEq, reduceCtorEq] at hop
    exact ⟨_, rfl, errorKind_phi _⟩

/-- Witness of the amended C13 on `%1 = add i32 %a, %b`. -/
theorem inst_exhaustive_witness :
    (Opcode.add ≠ .phi →
      (∃ lhs ex tok ey,
        inst sampleDecompiler sampleFmt
            (.InstAdd "1" (.int 32) (.localv "a" (.int 32)) (.localv "b" (.int 32))) =
          .ok (.AssignStmt [lhs] .DEFINE [.BinaryExpr ex tok ey])) ∨
      (∃ e, inst sampleDecompiler sampleFmt
            (.InstAdd "1" (.int 32) (.localv "a" (.int 32)) (.localv "b" (.int 32))) =
          .error e ∧
        (errorKind e = some .UnimplementedOpcode ∨
          errorKind e = some .UnimplementedPredicate))) ∧
    (Opcode.add = .phi →
      ∃ e, inst sampleDecompiler sampleFmt
            (.InstAdd "1" (.int 32) (.localv "a" (.int 32)) (.localv "b" (.int 32))) =
          .error e ∧ errorKind e = some .ContractViolation) :=
  inst_exhaustive sampleDecompiler sampleFmt sampleDecompiler_value_errors
    (.InstAdd "1" (.int 32) (.localv "a" (.int 32)) (.localv "b" (.int 32))) .add rfl

/-- C14: with operands `x`, `y` resolved to `ex`, `ey`, for every icmp
instruction named `n` with a declared predicate `p`, `inst` returns
`local(n) := ex <intPred(p)> ey`; and for every icmp or fcmp instruction whose
predicate is accepted by `intPred` or `floatPred`, `inst` returns
`local(n) := ex <tok> ey` with `tok` the operator returned for the predicate. -/
theorem inst_cmp_statement (d : decompiler) (fm : Fmt) (n : String) (t : IRType)
    (x y : Value) (ex ey : Expr) (hx : d.value x = .ok ex) (hy : d.value y = .ok ey) :
    (∀ p ∈ IntPred.declared, ∃ tok, intPred fm p = .ok tok ∧
      inst d fm (.InstICmp n t p x y) =
        .ok (.AssignStmt [d.local_ n] .DEFINE [.BinaryExpr ex tok ey])) ∧
    (∀ p tok, intPred fm p = .ok tok →
      inst d fm (.InstICmp n t p x y) =
        .ok (.AssignStmt [d.local_ n] .DEFINE [.BinaryExpr ex tok ey])) ∧
    (∀ q tok, floatPred fm q = .ok tok →
      inst d fm (.InstFCmp n t q x y) =
        .ok (.AssignStmt [d.local_ n] .DEFINE [.BinaryExpr ex tok ey])) := by
  have hi : ∀ p tok, intPred fm p = .ok tok →
      inst d fm (.InstICmp n t p x y) =
        .ok (.AssignStmt [d.local_ n] .DEFINE [.BinaryExpr ex tok ey]) := by
    intro p tok hp
    rw [← instBinaryOp_ok d n x y tok ex ey hx hy]
    simp only [inst, instICmp, hp]; rfl
  refine ⟨?_, hi, ?_⟩
  · intro p hp
    simp only [IntPred.declared, List.mem_cons, List.mem_singleton, List.not_mem_nil,
      or_false] at hp
    rcases hp with h | h | h | h | h | h | h | h | h | h <;> subst h <;>
      exact ⟨_, rfl, hi _ _ rfl⟩
  · intro q tok hq
    rw [← instBinaryOp_ok d n x y tok ex ey hx hy]
    simp only [inst, instFCmp, hq]; rfl

/-- Witness of C14 on `%2 = icmp slt i32 %x, 10`. -/
theorem inst_cmp_statement_witness :
    inst sampleDecompiler sampleFmt
        (.InstICmp "2" (.int 1) .IntSLT (.localv "x" (.int 32)) (.constInt (.int 32) 10)) =
      .ok (.AssignStmt [sampleDecompiler.local_ "2"] .DEFINE
        [.BinaryExpr (.Ident "_x") .LSS (.BasicLit .INT "10")]) :=
  (inst_cmp_statement sampleDecompiler sampleFmt "2" (.int 1) (.localv "x" (.int 32))
    (.constInt (.int 32) 10) (.Ident "_x") (.BasicLit .INT "10") rfl rfl).2.1 .IntSLT .LSS rfl

/-! ### Phi instructions never reach `inst` through `insts` -/

/-- A failure of the loop of `insts` is the failure of `inst` on a non-phi
instruction of the list. -/
theorem instsLoop_error (d : decompiler) (fm : Fmt) :
    ∀ (l : List Instruction) (acc : List Stmt) (e : String),
      instsLoop d fm l acc = .error e →
      ∃ i ∈ l, i.isPhi = false ∧ inst d fm i = .error e
  | [], acc, e, h => by simp [instsLoop] at h
  | i :: rest, acc, e, h => by
    by_cases hi : i.isPhi = true
    · simp only [instsLoop, hi, if_true] at h
      obtain ⟨j, hj, hjp, hje⟩ := instsLoop_error d fm rest acc e h
      exact ⟨j, List.mem_cons_of_mem _ hj, hjp, hje⟩
    · simp only [Bool.not_eq_true] at hi
      cases hs : inst d fm i with
      | error e' =>
        have he : instsLoop d fm (i :: rest) acc = .error e' := by
          simp only [instsLoop, hi, hs]; rfl
        rw [he] at h
        simp only [Except.error.injEq] at h
        subst h
        exact ⟨i, List.mem_cons_self _ _, hi, hs⟩
      | ok s =>
        have he : instsLoop d fm (i :: rest) acc = instsLoop d fm rest (acc ++ [s]) := by
          simp only [instsLoop, hi, hs]; rfl
        rw [he] at h
        obtain ⟨j, hj, hjp, hje⟩ := instsLoop_error d fm rest (acc ++ [s]) e h
        exact ⟨j, List.mem_cons_of_mem _ hj, hjp, hje⟩

/-- The loop of `insts` gives the same result on a list and on the list with
its phi instructions removed. -/
theorem instsLoop_filter (d : decompiler) (fm : Fmt) :
    ∀ (l : List Instruction) (acc : List Stmt),
      instsLoop d fm l acc = instsLoop d fm (l.filter (fun i => !i.isPhi)) acc
  | [], acc => rfl
  | i :: rest, acc => by
    by_cases hi : i.isPhi = true
    · simp only [List.filter, hi, Bool.not_true, instsLoop, if_true]
      exact instsLoop_filter d fm rest acc
    · simp only [Bool.not_eq_true] at hi
      simp only [List.filter, hi, Bool.not_false, instsLoop]
      cases inst d fm i with
      | error e => rfl
      | ok s => exact instsLoop_filter d fm rest (acc ++ [s])

/-- C15: `insts` never raises a contract violation. When the operand resolver
reports unimplemented-opcode errors only, for every instruction list, with phi
instructions at any positions, any failure of `insts` is the failure of `inst`
on some non-phi instruction of the list, of kind unimplemented opcode or
unimplemented predicate; and `insts` gives the same result as on the list with
its phi instructions removed. -/
theorem insts_failure_unimplemented (d : decompiler) (fm : Fmt)
    (hv : ∀ v e, d.value v = .error e → errorKind e = some .UnimplementedOpcode)
    (l : List Instruction) (e : String) (h : insts d fm l = .error e) :
    (∃ i ∈ l, i.isPhi = false ∧ inst d fm i = .error e) ∧
    (errorKind e = some .UnimplementedOpcode ∨ errorKind e = some .UnimplementedPredicate) ∧
    errorKind e ≠ some .ContractViolation ∧
    insts d fm l = insts d fm (l.filter (fun i => !i.isPhi)) := by
  obtain ⟨i, hil, hip, hie⟩ := instsLoop_error d fm l [] e h
  have hk : errorKind e = some .UnimplementedOpcode ∨
      errorKind e = some .UnimplementedPredicate := by
    rcases inst_outcome d fm hv i hip with ⟨_, _, _, _, hok⟩ | ⟨e', he', hk⟩
    · rw [hok] at hie; cases hie
    · rw [he'] at hie
      simp only [Except.error.injEq] at hie
      subst hie
      exact hk
  refine ⟨⟨i, hil, hip, hie⟩, hk, ?_, instsLoop_filter d fm l []⟩
  rcases hk with hk | hk <;> rw [hk] <;> decide

/-- Witness of C15: a phi followed by an alloca fails with the alloca's error. -/
theorem insts_failure_unimplemented_witness :
    (∃ i ∈ sampleFailingBlock, i.isPhi = false ∧
      inst sampleDecompiler sampleFmt i = .error "not yet implemented") ∧
    (errorKind "not yet implemented" = some .UnimplementedOpcode ∨
      errorKind "not yet implemented" = some .UnimplementedPredicate) ∧
    errorKind "not yet implemented" ≠ some .ContractViolation ∧
    insts sampleDecompiler sampleFmt sampleFailingBlock =
      insts sampleDecompiler sampleFmt (sampleFailingBlock.filter (fun i => !i.isPhi)) :=
  insts_failure_unimplemented sampleDecompiler sampleFmt sampleDecompiler_value_errors
    sampleFailingBlock "not yet implemented" rfl

/-! ### Information the translation drops -/

/-- C16: for every name `n` and operands `x`, `y`, the translations collapse:
udiv, sdiv and fdiv give the same result, as do urem, srem and frem, lshr and
ashr, icmp with an unsigned predicate and with the matching signed one, and
fcmp with an ordered predicate and with the matching unordered one, for each
of eq, gt, ge, lt, le, ne. -/
theorem inst_information_loss (d : decompiler) (fm : Fmt) (n : String) (t : IRType)
    (x y : Value) :
    inst d fm (.InstUDiv n t x y) = inst d fm (.InstSDiv n t x y) ∧
    inst d fm (.InstSDiv n t x y) = inst d fm (.InstFDiv n t x y) ∧
    inst d fm (.InstURem n t x y) = inst d fm (.InstSRem n t x y) ∧
    inst d fm (.InstSRem n t x y) = inst d fm (.InstFRem n t x y) ∧
    inst d fm (.InstLShr n t x y) = inst d fm (.InstAShr n t x y) ∧
    inst d fm (.InstICmp n t .IntUGT x y) = inst d fm (.InstICmp n t .IntSGT x y) ∧
    inst d fm (.InstICmp n t .IntUGE x y) = inst d fm (.InstICmp n t .IntSGE x y) ∧
    inst d fm (.InstICmp n t .IntULT x y) = inst d fm (.InstICmp n t .IntSLT x y) ∧
    inst d fm (.InstICmp n t .IntULE x y) = inst d fm (.InstICmp n t .IntSLE x y) ∧
    inst d fm (.InstFCmp n t .FloatOEQ x y) = inst d fm (.InstFCmp n t .FloatUEQ x y) ∧
    inst d fm (.InstFCmp n t .FloatOGT x y) = inst d fm (.InstFCmp n t .FloatUGT x y) ∧
    inst d fm (.InstFCmp n t .FloatOGE x y) = inst d fm (.InstFCmp n t .FloatUGE x y) ∧
    inst d fm (.InstFCmp n t .FloatOLT x y) = inst d fm (.InstFCmp n t .FloatULT x y) ∧
    inst d fm (.InstFCmp n t .FloatOLE x y) = inst d fm (.InstFCmp n t .FloatULE x y) ∧
    inst d fm (.InstFCmp n t .FloatONE x y) = inst d fm (.InstFCmp n t .FloatUNE x y) ∧
    inst d fm (.InstUDiv n t x y) = instBinaryOp d n x .QUO y ∧
    inst d fm (.InstURem n t x y) = instBinaryOp d n x .REM y ∧
    inst d fm (.InstLShr n t x y) = instBinaryOp d n x .SHR y ∧
    inst d fm (.InstICmp n t .IntUGT x y) = instBinaryOp d n x .GTR y ∧
    inst d fm (.InstFCmp n t .FloatOEQ x y) = instBinaryOp d n x .EQL y :=
  ⟨rfl, rfl, rfl, rfl, rfl, rfl, rfl, rfl, rfl, rfl, rfl, rfl, rfl, rfl, rfl, rfl, rfl, rfl,
    rfl, rfl⟩

/-- C17: the result type of an instruction is not consulted: two instructions
of the same arithmetic, bitwise or comparison opcode with the same result
name, operands and predicate, and result types `t` and `t'`, make `inst`
return the same result. -/
theorem inst_result_type_ignored (d : decompiler) (fm : Fmt) (n : String) (t t' : IRType)
    (x y : Value) (p : IntPred) (q : FloatPred) :
    inst d fm (.InstAdd n t x y) = inst d fm (.InstAdd n t' x y) ∧
    inst d fm (.InstFAdd n t x y) = inst d fm (.InstFAdd n t' x y) ∧
    inst d fm (.InstSub n t x y) = inst d fm (.InstSub n t' x y) ∧
    inst d fm (.InstFSub n t x y) = inst d fm (.InstFSub n t' x y) ∧
    inst d fm (.InstMul n t x y) = inst d fm (.InstMul n t' x y) ∧
    inst d fm (.InstFMul n t x y) = inst d fm (.InstFMul n t' x y) ∧
    inst d fm (.InstUDiv n t x y) = inst d fm (.InstUDiv n t' x y) ∧
    inst d fm (.InstSDiv n t x y) = inst d fm (.InstSDiv n t' x y) ∧
    inst d fm (.InstFDiv n t x y) = inst d fm (.InstFDiv n t' x y) ∧
    inst d fm (.InstURem n t x y) = inst d fm (.InstURem n t' x y) ∧
    inst d fm (.InstSRem n t x y) = inst d fm (.InstSRem n t' x y) ∧
    inst d fm (.InstFRem n t x y) = inst d fm (.InstFRem n t' x y) ∧
    inst d fm (.InstShl n t x y) = inst d fm (.InstShl n t' x y) ∧
    inst d fm (.InstLShr n t x y) = inst d fm (.InstLShr n t' x y) ∧
    inst d fm (.InstAShr n t x y) = inst d fm (.InstAShr n t' x y) ∧
    inst d fm (.InstAnd n t x y) = inst d fm (.InstAnd n t' x y) ∧
    inst d fm (.InstOr n t x y) = inst d fm (.InstOr n t' x y) ∧
    inst d fm (.InstXor n t x y) = inst d fm (.InstXor n t' x y) ∧
    inst d fm (.InstICmp n t p x y) = inst d fm (.InstICmp n t' p x y) ∧
    inst d fm (.InstFCmp n t q x y) = inst d fm (.InstFCmp n t' q x y) :=
  ⟨rfl, rfl, rfl, rfl, rfl, rfl, rfl, rfl, rfl, rfl, rfl, rfl, rfl, rfl, rfl, rfl, rfl, rfl,
    rfl, rfl⟩

/-! ### The cases of the dispatcher -/

/-- Every opcode is the opcode of some instruction. -/
theorem opcode_inhabited (op : Opcode) : ∃ i : Instruction, i.opcode = some op := by
  cases op <;>
    first
    | exact ⟨.InstAdd "" .void (.constNull .void) (.constNull .void), rfl⟩
    | exact ⟨.InstFAdd "" .void (.constNull .void) (.constNull .void), rfl⟩
    | exact ⟨.InstSub "" .void (.constNull .void) (.constNull .void), rfl⟩
    | exact ⟨.InstFSub "" .void (.constNull .void) (.constNull .void), rfl⟩
    | exact ⟨.InstMul "" .void (.constNull .void) (.constNull .void), rfl⟩
    | exact ⟨.InstFMul "" .void (.constNull .void) (.constNull .void), rfl⟩
    | exact ⟨.InstUDiv "" .void (.constNull .void) (.constNull .void), rfl⟩
    | exact ⟨.InstSDiv "" .void (.constNull .void) (.constNull .void), rfl⟩
    | exact ⟨.InstFDiv "" .void (.constNull .void) (.constNull .void), rfl⟩
    | exact ⟨.InstURem "" .void (.constNull .void) (.constNull .void), rfl⟩
    | exact ⟨.InstSRem "" .void (.constNull .void) (.constNull .void), rfl⟩
    | exact ⟨.InstFRem "" .void (.constNull .void) (.constNull .void), rfl⟩
    | exact ⟨.InstShl "" .void (.constNull .void) (.constNull .void), rfl⟩
    | exact ⟨.InstLShr "" .void (.constNull .void) (.constNull .void), rfl⟩
    | exact ⟨.InstAShr "" .void (.constNull .void) (.constNull .void), rfl⟩
    | exact ⟨.InstAnd "" .void (.constNull .void) (.constNull .void), rfl⟩
    | exact ⟨.InstOr "" .void (.constNull .void) (.constNull .void), rfl⟩
    | exact ⟨.InstXor "" .void (.constNull .void) (.constNull .void), rfl⟩
    | exact ⟨.InstAlloca "" .void .void none, rfl⟩
    | exact ⟨.InstLoad "" .void (.constNull .void), rfl⟩
    | exact ⟨.InstStore (.constNull .void) (.constNull .void), rfl⟩
    | exact ⟨.InstGetElementPtr "" .void (.constNull .void) [], rfl⟩
    | exact ⟨.InstTrunc "" (.constNull .void) .void, rfl⟩
    | exact ⟨.InstZExt "" (.constNull .void) .void, rfl⟩
    | exact ⟨.InstSExt "" (.constNull .void) .void, rfl⟩
    | exact ⟨.InstFPTrunc "" (.constNull .void) .void, rfl⟩
    | exact ⟨.InstFPExt "" (.constNull .void) .void, rfl⟩
    | exact ⟨.InstFPToUI "" (.constNull .void) .void, rfl⟩
    | exact ⟨.InstFPToSI "" (.constNull .void) .void, rfl⟩
    | exact ⟨.InstUIToFP "" (.constNull .void) .void, rfl⟩
    | exact ⟨.InstSIToFP "" (.constNull .void) .void, rfl⟩
    | exact ⟨.InstPtrToInt "" (.constNull .void) .void, rfl⟩
    | exact ⟨.InstIntToPtr "" (.constNull .void) .void, rfl⟩
    | exact ⟨.InstBitCast "" (.constNull .void) .void, rfl⟩
    | exact ⟨.InstAddrSpaceCast "" (.constNull .void) .void, rfl⟩
    | exact ⟨.InstICmp "" .void .IntEQ (.constNull .void) (.constNull .void), rfl⟩
    | exact ⟨.InstFCmp "" .void .FloatOEQ (.constNull .void) (.constNull .void), rfl⟩
    | exact ⟨.InstPhi "" .void [], rfl⟩
    | exact ⟨.InstSelect "" .void (.constNull .void) (.constNull .void) (.constNull .void), rfl⟩
    | exact ⟨.InstCall "" .void (.constNull .void) [], rfl⟩

/-- C18 as stated fails: the switch of `inst` has 13 conversion cases, not 11
(each conversion opcode is the opcode of an instruction that reaches its own
stub, not the default case), and 40 cases in all, not 38. -/
theorem dispatch_counts_refuted :
    ¬ (conversionOpcodes.length = 11) ∧ ¬ (dispatchCases.length = 38) ∧
    conversionOpcodes.Nodup ∧ dispatchCases.Nodup ∧
    conversionOpcodes =
      [.trunc, .zext, .sext, .fptrunc, .fpext, .fptoui, .fptosi, .uitofp, .sitofp,
       .ptrtoint, .inttoptr, .bitcast, .addrspacecast] ∧
    (∀ op ∈ conversionOpcodes, ∃ i : Instruction, i.opcode = some op ∧
      inst sampleDecompiler sampleFmt i = .error "not yet implemented") := by
  refine ⟨by decide, by decide, by decide, by decide, rfl, ?_⟩
  intro op hop
  obtain ⟨i, hi⟩ := opcode_inhabited op
  exact ⟨i, hi, inst_stub_error sampleDecompiler sampleFmt i op hi
    (List.mem_append_left _ (List.mem_append_right _ hop))⟩

/-- The report of a stub is not the report of the default case of `inst`. -/
theorem stub_report_ne_default (T : String) :
    "not yet implemented" ≠ "support for instruction " ++ T ++ " not yet implemented" := by
  intro h
  have hm := mismatch_append "not yet implemented" ("support for instruction " ++ T)
    " not yet implemented" 1
    (mismatch_append _ _ _ 1 ⟨by decide, by decide, by decide⟩)
  exact hm.2.2 (by rw [← h])

/-- The report of a phi is not the report of the default case of `inst`. -/
theorem phi_report_ne_default (r T : String) :
    "unexpected PHI instruction `" ++ r ++ "`" ≠
      "support for instruction " ++ T ++ " not yet implemented" := by
  intro h
  have h1 := errorKind_phi r
  rw [h, errorKind_inst_default T] at h1
  cases h1

/-- C18, amended: the explicit cases of the dispatcher are exactly the opcode
set: 12 binary arithmetic opcodes, 6 bitwise opcodes, 4 memory opcodes, 13
conversion opcodes, 2 comparison opcodes and the 3 others phi, select and call
(40 cases in all), each opcode having its own case: `inst` sends every
instruction of each of the 40 opcodes to the translator of that opcode (the
PHI report for phi), an instruction of a stubbed opcode or a phi never gets
the report of the default case, and only an instruction of another type
reaches the default case. -/
theorem dispatch_counts (d : decompiler) (fm : Fmt) :
    (binaryOpcodes.length = 12 ∧ bitwiseOpcodes.length = 6 ∧ memoryOpcodes.length = 4 ∧
      conversionOpcodes.length = 13 ∧ comparisonOpcodes.length = 2 ∧
      otherOpcodes = [.phi, .select, .call] ∧
      dispatchCases.length = 40 ∧ dispatchCases.Nodup ∧
      (∀ op : Opcode, op ∈ dispatchCases) ∧
      (∀ op : Opcode, ∃ i : Instruction, i.opcode = some op) ∧
      (∀ i : Instruction, i.opcode = none ↔ ∃ T, i = .InstOther T) ∧
      (∀ T, inst d fm (.InstOther T) =
        .error ("support for instruction " ++ T ++ " not yet implemented"))) ∧
    (∀ (i : Instruction) (op : Opcode), i.opcode = some op →
      op ∈ stubbedOpcodes ∨ op = .phi →
      ∀ T, inst d fm i ≠
        .error ("support for instruction " ++ T ++ " not yet implemented")) ∧
    (∀ (n : String) (t : IRType) (x y : Value),
      (Instruction.InstAdd n t x y).opcode = some .add ∧
      inst d fm (.InstAdd n t x y) = instAdd d n t x y) ∧
    (∀ (n : String) (t : IRType) (x y : Value),
      (Instruction.InstFAdd n t x y).opcode = some .fadd ∧
      inst d fm (.InstFAdd n t x y) = instFAdd d n t x y) ∧
    (∀ (n : String) (t : IRType) (x y : Value),
      (Instruction.InstSub n t x y).opcode = some .sub ∧
      inst d fm (.InstSub n t x y) = instSub d n t x y) ∧
    (∀ (n : String) (t : IRType) (x y : Value),
      (Instruction.InstFSub n t x y).opcode = some .fsub ∧
      inst d fm (.InstFSub n t x y) = instFSub d n t x y) ∧
    (∀ (n : String) (t : IRType) (x y : Value),
      (Instruction.InstMul n t x y).opcode = some .mul ∧
      inst d fm (.InstMul n t x y) = instMul d n t x y) ∧
    (∀ (n : String) (t : IRType) (x y : Value),
      (Instruction.InstFMul n t x y).opcode = some .fmul ∧
      inst d fm (.InstFMul n t x y) = instFMul d n t x y) ∧
    (∀ (n : String) (t : IRType) (x y : Value),
      (Instruction.InstUDiv n t x y).opcode = some .udiv ∧
      inst d fm (.InstUDiv n t x y) = instUDiv d n t x y) ∧
    (∀ (n : String) (t : IRType) (x y : Value),
      (Instruction.InstSDiv n t x y).opcode = some .sdiv ∧
      inst d fm (.InstSDiv n t x y) = instSDiv d n t x y) ∧
    (∀ (n : String) (t : IRType) (x y : Value),
      (Instruction.InstFDiv n t x y).opcode = some .fdiv ∧
      inst d fm (.InstFDiv n t x y) = instFDiv d n t x y) ∧
    (∀ (n : String) (t : IRType) (x y : Value),
      (Instruction.InstURem n t x y).opcode = some .urem ∧
      inst d fm (.InstURem n t x y) = instURem d n t x y) ∧
    (∀ (n : String) (t : IRType) (x y : Value),
      (Instruction.InstSRem n t x y).opcode = some .srem ∧
      inst d fm (.InstSRem n t x y) = instSRem d n t x y) ∧
    (∀ (n : String) (t : IRType) (x y : Value),
      (Instruction.InstFRem n t x y).opcode = some .frem ∧
      inst d fm (.InstFRem n t x y) = instFRem d n t x y) ∧
    (∀ (n : String) (t : IRType) (x y : Value),
      (Instruction.InstShl n t x y).opcode = some .shl ∧
      inst d fm (.InstShl n t x y) = instShl d n t x y) ∧
    (∀ (n : String) (t : IRType) (x y : Value),
      (Instruction.InstLShr n t x y).opcode = some .lshr ∧
      inst d fm (.InstLShr n t x y) = instLShr d n t x y) ∧
    (∀ (n : String) (t : IRType) (x y : Value),
      (Instruction.InstAShr n t x y).opcode = some .ashr ∧
      inst d fm (.InstAShr n t x y) = instAShr d n t x y) ∧
    (∀ (n : String) (t : IRType) (x y : Value),
      (Instruction.InstAnd n t x y).opcode = some .and ∧
      inst d fm (.InstAnd n t x y) = instAnd d n t x y) ∧
    (∀ (n : String) (t : IRType) (x y : Value),
      (Instruction.InstOr n t x y).opcode = some .or ∧
      inst d fm (.InstOr n t x y) = instOr d n t x y) ∧
    (∀ (n : String) (t : IRType) (x y : Value),
      (Instruction.InstXor n t x y).opcode = some .xor ∧
      inst d fm (.InstXor n t x y) = instXor d n t x y) ∧
    (∀ (n : String) (t e : IRType) (k : Option Value),
      (Instruction.InstAlloca n t e k).opcode = some .alloca ∧
      inst d fm (.InstAlloca n t e k) = instAlloca d (.InstAlloca n t e k)) ∧
    (∀ (n : String) (t : IRType) (v : Value),
      (Instruction.InstLoad n t v).opcode = some .load ∧
      inst d fm (.InstLoad n t v) = instLoad d (.InstLoad n t v)) ∧
    (∀ (v w : Value),
      (Instruction.InstStore v w).opcode = some .store ∧
      inst d fm (.InstStore v w) = instStore d (.InstStore v w)) ∧
    (∀ (n : String) (t : IRType) (v : Value) (idx : List Value),
      (Instruction.InstGetElementPtr n t v idx).opcode = some .getelementptr ∧
      inst d fm (.InstGetElementPtr n t v idx) = instGetElementPtr d (.InstGetElementPtr n t v idx)) ∧
    (∀ (n : String) (v : Value) (t : IRType),
      (Instruction.InstTrunc n v t).opcode = some .trunc ∧
      inst d fm (.InstTrunc n v t) = instTrunc d (.InstTrunc n v t)) ∧
    (∀ (n : String) (v : Value) (t : IRType),
      (Instruction.InstZExt n v t).opcode = some .zext ∧
      inst d fm (.InstZExt n v t) = instZExt d (.InstZExt n v t)) ∧
    (∀ (n : String) (v : Value) (t : IRType),
      (Instruction.InstSExt n v t).opcode = some .sext ∧
      inst d fm (.InstSExt n v t) = instSExt d (.InstSExt n v t)) ∧
    (∀ (n : String) (v : Value) (t : IRType),
      (Instruction.InstFPTrunc n v t).opcode = some .fptrunc ∧
      inst d fm (.InstFPTrunc n v t) = instFPTrunc d (.InstFPTrunc n v t)) ∧
    (∀ (n : String) (v : Value) (t : IRType),
      (Instruction.InstFPExt n v t).opcode = some .fpext ∧
      inst d fm (.InstFPExt n v t) = instFPExt d (.InstFPExt n v t)) ∧
    (∀ (n : String) (v : Value) (t : IRType),
      (Instruction.InstFPToUI n v t).opcode = some .fptoui ∧
      inst d fm (.InstFPToUI n v t) = instFPToUI d (.InstFPToUI n v t)) ∧
    (∀ (n : String) (v : Value) (t : IRType),
      (Instruction.InstFPToSI n v t).opcode = some .fptosi ∧
      inst d fm (.InstFPToSI n v t) = instFPToSI d (.InstFPToSI n v t)) ∧
    (∀ (n : String) (v : Value) (t : IRType),
      (Instruction.InstUIToFP n v t).opcode = some .uitofp ∧
      inst d fm (.InstUIToFP n v t) = instUIToFP d (.InstUIToFP n v t)) ∧
    (∀ (n : String) (v : Value) (t : IRType),
      (Instruction.InstSIToFP n v t).opcode = some .sitofp ∧
      inst d fm (.InstSIToFP n v t) = instSIToFP d (.InstSIToFP n v t)) ∧
    (∀ (n : String) (v : Value) (t : IRType),
      (Instruction.InstPtrToInt n v t).opcode = some .ptrtoint ∧
      inst d fm (.InstPtrToInt n v t) = instPtrToInt d (.InstPtrToInt n v t)) ∧
    (∀ (n : String) (v : Value) (t : IRType),
      (Instruction.InstIntToPtr n v t).opcode = some .inttoptr ∧
      inst d fm (.InstIntToPtr n v t) = instIntToPtr d (.InstIntToPtr n v t)) ∧
    (∀ (n : String) (v : Value) (t : IRType),
      (Instruction.InstBitCast n v t).opcode = some .bitcast ∧
      inst d fm (.InstBitCast n v t) = instBitCast d (.InstBitCast n v t)) ∧
    (∀ (n : String) (v : Value) (t : IRType),
      (Instruction.InstAddrSpaceCast n v t).opcode = some .addrspacecast ∧
      inst d fm (.InstAddrSpaceCast n v t) = instAddrSpaceCast d (.InstAddrSpaceCast n v t)) ∧
    (∀ (n : String) (t : IRType) (p : IntPred) (x y : Value),
      (Instruction.InstICmp n t p x y).opcode = some .icmp ∧
      inst d fm (.InstICmp n t p x y) = instICmp d fm n t p x y) ∧
    (∀ (n : String) (t : IRType) (p : FloatPred) (x y : Value),
      (Instruction.InstFCmp n t p x y).opcode = some .fcmp ∧
      inst d fm (.InstFCmp n t p x y) = instFCmp d fm n t p x y) ∧
    (∀ (n : String) (t : IRType) (incs : List (Value × String)),
      (Instruction.InstPhi n t incs).opcode = some .phi ∧
      inst d fm (.InstPhi n t incs) =
        .error ("unexpected PHI instruction `" ++ fm.inst (.InstPhi n t incs) ++ "`")) ∧
    (∀ (n : String) (t : IRType) (c x y : Value),
      (Instruction.InstSelect n t c x y).opcode = some .select ∧
      inst d fm (.InstSelect n t c x y) = instSelect d (.InstSelect n t c x y)) ∧
    (∀ (n : String) (t : IRType) (f : Value) (args : List Value),
      (Instruction.InstCall n t f args).opcode = some .call ∧
      inst d fm (.InstCall n t f args) = instCall d (.InstCall n t f args)) := by
  refine ⟨⟨rfl, rfl, rfl, rfl, rfl, rfl, rfl, by decide, ?_, opcode_inhabited, ?_,
    fun _ => rfl⟩, ?_, ?_, ?_, ?_, ?_, ?_, ?_, ?_, ?_, ?_, ?_, ?_, ?_, ?_, ?_, ?_, ?_, ?_, ?_, ?_, ?_, ?_, ?_, ?_, ?_, ?_, ?_, ?_, ?_, ?_, ?_, ?_, ?_, ?_, ?_, ?_, ?_, ?_, ?_, ?_, ?_⟩
  · intro op
    cases op <;> decide
  · intro i
    cases i <;> simp [Instruction.opcode]
  · intro i op hop hcase T heq
    rcases hcase with hs | hphi
    · rw [inst_stub_error d fm i op hop hs] at heq
      simp only [Except.error.injEq] at heq
      exact stub_report_ne_default T heq
    · subst hphi
      cases i <;> simp only [Instruction.opcode, Option.some.injEq, reduceCtorEq] at hop
      simp only [inst, Except.error.injEq] at heq
      exact phi_report_ne_default _ T heq
  all_goals (intros; exact ⟨rfl, rfl⟩)

/-! ### `insts` and concatenation -/

/-- The statements built so far are a prefix of the result of the loop. -/
theorem instsLoop_acc (d : decompiler) (fm : Fmt) :
    ∀ (l : List Instruction) (acc : List Stmt),
      instsLoop d fm l acc = (instsLoop d fm l []).map (fun ss => acc ++ ss)
  | [], acc => by simp [instsLoop, Except.map]
  | i :: rest, acc => by
    by_cases hi : i.isPhi = true
    · simp only [instsLoop, hi, if_true]
      exact instsLoop_acc d fm rest acc
    · simp only [Bool.not_eq_true] at hi
      cases hs : inst d fm i with
      | error e => simp only [instsLoop, hi, hs]; rfl
      | ok s =>
        have h1 : instsLoop d fm (i :: rest) acc = instsLoop d fm rest (acc ++ [s]) := by
          simp only [instsLoop, hi, hs]; rfl
        have h2 : instsLoop d fm (i :: rest) [] = instsLoop d fm rest ([] ++ [s]) := by
          simp only [instsLoop, hi, hs]; rfl
        rw [h1, h2, instsLoop_acc d fm rest (acc ++ [s]), instsLoop_acc d fm rest ([] ++ [s])]
        cases instsLoop d fm rest [] with
        | error e => rfl
        | ok ss => simp [Except.map]

/-- The loop over a concatenation is the loop over the first list followed by
the loop over the second one, started from the result of the first. -/
theorem instsLoop_append (d : decompiler) (fm : Fmt) :
    ∀ (a b : List Instruction) (acc : List Stmt),
      instsLoop d fm (a ++ b) acc =
        (instsLoop d fm a acc).bind (fun sa => instsLoop d fm b sa)
  | [], b, acc => rfl
  | i :: rest, b, acc => by
    by_cases hi : i.isPhi = true
    · simp only [List.cons_append, instsLoop, hi, if_true]
      exact instsLoop_append d fm rest b acc
    · simp only [Bool.not_eq_true] at hi
      cases hs : inst d fm i with
      | error e => simp only [List.cons_append, instsLoop, hi, hs]; rfl
      | ok s =>
        have h1 : instsLoop d fm (i :: rest ++ b) acc =
            instsLoop d fm (rest ++ b) (acc ++ [s]) := by
          simp only [List.cons_append, instsLoop, hi, hs]; rfl
        have h2 : instsLoop d fm (i :: rest) acc = instsLoop d fm rest (acc ++ [s]) := by
          simp only [instsLoop, hi, hs]; rfl
        rw [h1, h2]
        exact instsLoop_append d fm rest b (acc ++ [s])

/-- C19: `insts` distributes over concatenation: translating `a ++ b` is
translating `a`, then `b`, and appending the results. When both succeed the
result is the concatenation; otherwise `insts (a ++ b)` fails with the failure
of `a` if `a` fails, and with the failure of `b` if only `b` fails; and
`insts []` is the empty list. -/
theorem insts_append (d : decompiler) (fm : Fmt) (a b : List Instruction) :
    insts d fm (a ++ b) =
      (match insts d fm a with
        | .error e => .error e
        | .ok sa =>
          match insts d fm b with
          | .error e => .error e
          | .ok sb => .ok (sa ++ sb)) ∧
    (∀ sa sb, insts d fm a = .ok sa → insts d fm b = .ok sb →
      insts d fm (a ++ b) = .ok (sa ++ sb)) ∧
    (∀ e, insts d fm a = .error e → insts d fm (a ++ b) = .error e) ∧
    (∀ sa e, insts d fm a = .ok sa → insts d fm b = .error e →
      insts d fm (a ++ b) = .error e) ∧
    insts d fm [] = .ok [] := by
  have key : insts d fm (a ++ b) =
      (match insts d fm a with
        | .error e => .error e
        | .ok sa =>
          match insts d fm b with
          | .error e => .error e
          | .ok sb => .ok (sa ++ sb)) := by
    unfold insts
    rw [instsLoop_append d fm a b []]
    cases ha : instsLoop d fm a [] with
    | error e => rfl
    | ok sa =>
      simp only [Except.bind]
      rw [instsLoop_acc d fm b sa]
      cases instsLoop d fm b [] with
      | error e => rfl
      | ok sb => rfl
  refine ⟨key, ?_, ?_, ?_, rfl⟩
  · intro sa sb ha hb
    rw [key, ha, hb]
  · intro e ha
    rw [key, ha]
  · intro sa e ha hb
    rw [key, ha, hb]

end Ll2go
